import Mathlib

/-!
# mattak: run-information parsing (`src/RunInfo.cc`)

A shallow embedding of the key/value store builder and of the typed lookups of
`mattak::RunInfo`, followed by the properties established about them.

Conventions of the embedding.

* A `std::string` is the list of its characters (`Str`).
* The file `runinfo.txt` is the list of the lines `std::getline` delivers; a
  file that cannot be opened delivers no line.
* An output pointer (`int * val`, ...) is an `Option`: `none` is the null
  pointer and `some v` a valid pointer whose pointee currently holds `v`. Every
  lookup returns its status together with the pointee after the call.
* `sscanf` is the C library function; its integer conversions are modelled
  after ISO C as implemented by glibc on an LP64 platform.
-/

namespace mattak

/-! ## Strings -/

/-- A `std::string`, as the list of its characters. -/
abbrev Str := List Char

/-- The constant `std::string::npos`: the largest value of a 64-bit `size_t`. -/
def npos : Nat := 2 ^ 64 - 1

/-- A search result as the `size_t` the C++ call returns: the index found, or
`npos` when there is none. -/
def toSizeT : Option Nat → Nat
  | some i => i
  | none => npos

/-- The call `s.find(c)` for a one-character needle: the index of the first
occurrence of `c`, `none` standing for `npos`. -/
def find (c : Char) : Str → Option Nat
  | [] => none
  | a :: s => if a = c then some 0 else (find c s).map (· + 1)

/-- The call `s.find_last_not_of(ws)`: the index of the last character of `s`
that does not occur in `ws`, `none` standing for `npos`. -/
def find_last_not_of (ws : Str) : Str → Option Nat
  | [] => none
  | a :: s =>
    match find_last_not_of ws s with
    | some i => some (i + 1)
    | none => if ws.contains a then none else some 0

/-- The call `s.erase(pos)`: drops everything from index `pos` on. -/
def erase (s : Str) (pos : Nat) : Str := s.take pos

/-- The call `s.erase(0, n)`: drops the first `n` characters (all of them when
`n` exceeds the length, as for `n = npos`). -/
def eraseFront (s : Str) (n : Nat) : Str := s.drop n

/-- The function `trim` of `RunInfo.cc`:
`s.erase(s.find_last_not_of(ws)+1); s.erase(0, s.find_last_not_of(ws));`
with `ws = " \t"`. The addition is `size_t` arithmetic, so `npos + 1` is `0`. -/
def trim (s : Str) : Str :=
  let ws : Str := [' ', '\t']
  let s1 := erase s ((toSizeT (find_last_not_of ws s) + 1) % 2 ^ 64)
  eraseFront s1 (toSizeT (find_last_not_of ws s1))

/-! ## The key/value store -/

/-- Modelled from the spec: the member `kvp` is declared in `mattak/RunInfo.h`,
which is not among the sources; the spec calls it a mapping from string key to
string value with unique keys. It is kept as an association list in which no key
occurs twice. -/
abbrev Kvp := List (Str × Str)

/-- The assignment `kvp[key] = value`: overwrites the value of an existing
entry, and adds the entry otherwise. -/
def Kvp.assign (key value : Str) : Kvp → Kvp
  | [] => [(key, value)]
  | (k, v) :: m => if k = key then (k, value) :: m else (k, v) :: Kvp.assign key value m

/-- The call `kvp.find(key)`: the value of the entry with that key, `none`
standing for `kvp.end()`. -/
def Kvp.find (key : Str) : Kvp → Option Str
  | [] => none
  | (k, v) :: m => if k = key then some v else Kvp.find key m

/-- The keys of the entries of the store, in list order. -/
def Kvp.keys (m : Kvp) : List Str := m.map Prod.fst

/-- The body of the `while (std::getline(fruninfo,line))` loop of the
constructor: a line without `=` is skipped, any other line is split at its
first `=`, the key is passed through `trim` and the pair is stored. -/
def processLine (kvp : Kvp) (line : Str) : Kvp :=
  match find '=' line with
  | none => kvp
  | some pos =>
    let key := line.take pos
    let value := line.drop (pos + 1)
    Kvp.assign (trim key) value kvp

/-- The store the constructor builds from the lines of the file, starting from
the empty map. -/
def buildKvp (lines : List Str) : Kvp := lines.foldl processLine []

/-- The file-scope string `empty`, returned by `lookup` for an absent key. -/
def empty : Str := []

/-- The member function `lookup`: the stored value, or `empty`. -/
def lookup (kvp : Kvp) (key : Str) : Str :=
  match Kvp.find key kvp with
  | none => empty
  | some v => v

/-! ## The C library's `sscanf`, restricted to what `RunInfo.cc` uses -/

/-- The function `isspace` of the C locale. -/
def isspace (c : Char) : Bool :=
  c == ' ' || c == '\t' || c == '\n' || c == '\x0b' || c == '\x0c' || c == '\r'

/-- The numeric value of a character as a digit, up to hexadecimal. -/
def digitVal (c : Char) : Option Nat :=
  if 48 ≤ c.toNat ∧ c.toNat ≤ 57 then some (c.toNat - 48)
  else if 97 ≤ c.toNat ∧ c.toNat ≤ 102 then some (c.toNat - 87)
  else if 65 ≤ c.toNat ∧ c.toNat ≤ 70 then some (c.toNat - 55)
  else none

/-- Whether `c` is a digit of the given base (8, 10 or 16). -/
def isDigitOf (base : Nat) (c : Char) : Bool :=
  match digitVal c with
  | some d => decide (d < base)
  | none => false

/-- The integer conversion specifiers `%d`, `%i`, `%o` and `%x`. -/
inductive Conv where
  | d
  | i
  | o
  | x
  deriving DecidableEq, Repr

/-- The base a conversion starts with; `0` means that it is detected from the
text. -/
def Conv.base : Conv → Nat
  | .d => 10
  | .i => 0
  | .o => 8
  | .x => 16

/-- Whether the conversion converts with `strtol` (otherwise `strtoul`). -/
def Conv.isSigned : Conv → Bool
  | .d => true
  | .i => true
  | .o => false
  | .x => false

/-- One directive of a format string: an ordinary character that has to match
the next input character, or a conversion with its optional maximum field
width. -/
inductive Directive where
  | lit (c : Char)
  | conv (width : Option Nat) (cv : Conv)
  deriving DecidableEq, Repr

/-- The statement `if (width > 0) --width;` on the remaining field width, `none`
being the unlimited width. -/
def decWidth : Option Nat → Option Nat
  | none => none
  | some w => some (w - 1)

/-- The test `width != 0` on the remaining field width. -/
def widthLeft : Option Nat → Bool
  | some 0 => false
  | _ => true

/-- The digit loop of a conversion: reads digits of `base` while the field
width lasts; gives the digits read and the input left. -/
def readDigits (base : Nat) : Option Nat → Str → Str × Str
  | _, [] => ([], [])
  | w, c :: s =>
    if widthLeft w && isDigitOf base c then
      ((c :: (readDigits base (decWidth w) s).1), (readDigits base (decWidth w) s).2)
    else ([], c :: s)

/-- The number a digit sequence denotes in `base`. -/
def digitsValue (base : Nat) (ds : Str) : Nat :=
  ds.foldl (fun acc c => acc * base + (digitVal c).getD 0) 0

/-- The conversion of a value to `int`: reduction modulo 2^32 into the signed
range. -/
def toInt32 (z : Int) : Int := (z + 2 ^ 31) % 2 ^ 32 - 2 ^ 31

/-- The result of `strtol` for a sign and a magnitude: clamped to the range of
a 64-bit `long`. -/
def strtol (neg : Bool) (m : Nat) : Int :=
  if neg then max (-(2 ^ 63)) (-(m : Int)) else min (2 ^ 63 - 1) (m : Int)

/-- The result of `strtoul` for a sign and a magnitude: `ULONG_MAX` when the
magnitude is out of range, the magnitude negated modulo 2^64 for a minus
sign. -/
def strtoul (neg : Bool) (m : Nat) : Int :=
  if 2 ^ 64 - 1 < m then 2 ^ 64 - 1
  else if neg then ((2 ^ 64 - m) % 2 ^ 64 : Nat) else (m : Int)

/-- The `int` a conversion stores for a sign and a magnitude. -/
def storeInt (cv : Conv) (neg : Bool) (m : Nat) : Int :=
  if cv.isSigned then toInt32 (strtol neg m) else toInt32 (strtoul neg m)

/-- The outcome of one conversion. -/
inductive Item where
  | inputFailure
  | matchFailure
  | ok (value : Int) (rest : Str)
  deriving DecidableEq, Repr

/-- One integer conversion on the input: white space is skipped, then an
optional sign, an optional `0` or `0x` prefix and the digits are read. The
input ending before the item is an input failure, an item without a digit a
matching failure. -/
def scanInt (cv : Conv) (width : Option Nat) (input : Str) : Item :=
  match input.dropWhile isspace with
  | [] => .inputFailure
  | c :: s =>
    let hasSign := c == '-' || c == '+'
    let neg := c == '-'
    let w1 := if hasSign then decWidth width else width
    let s1 := if hasSign then s else c :: s
    let zero := widthLeft w1 && s1.head? == some '0'
    let w2 := if zero then decWidth w1 else w1
    let s2 := if zero then s1.tail else s1
    let isx := zero && widthLeft w2 && (s2.head? == some 'x' || s2.head? == some 'X')
    let base :=
      if isx then (if cv.base = 0 then 16 else cv.base)
      else if zero && cv.base == 0 then 8
      else if cv.base = 0 then 10 else cv.base
    let skipx := isx && base == 16
    let w3 := if skipx then decWidth w2 else w2
    let s3 := if skipx then s2.tail else s2
    let r := readDigits base w3 s3
    let buf := (if zero then ['0'] else []) ++ r.1
    if buf = [] then .matchFailure else .ok (storeInt cv neg (digitsValue base buf)) r.2

/-- The value `EOF` that `sscanf` returns for an input failure before the first
conversion. -/
def EOF : Int := -1

/-- What a call of `sscanf` does: the value it returns and the values it has
stored through its pointer arguments, in argument order. -/
structure ScanResult where
  count : Int
  assigned : List Int
  deriving DecidableEq, Repr

/-- The directive loop of `sscanf`; `acc` holds the values stored so far. -/
def sscanfLoop : List Directive → Str → List Int → ScanResult
  | [], _, acc => ⟨acc.length, acc⟩
  | .lit c :: fmt, inp, acc =>
    match inp with
    | [] => ⟨if acc = [] then EOF else acc.length, acc⟩
    | a :: rest => if a = c then sscanfLoop fmt rest acc else ⟨acc.length, acc⟩
  | .conv w cv :: fmt, inp, acc =>
    match scanInt cv w inp with
    | .inputFailure => ⟨if acc = [] then EOF else acc.length, acc⟩
    | .matchFailure => ⟨acc.length, acc⟩
    | .ok v rest => sscanfLoop fmt rest (acc ++ [v])

/-- The call `sscanf(str, fmt, ...)`. -/
def sscanf (str : Str) (fmt : List Directive) : ScanResult := sscanfLoop fmt str []

/-- The format `"%x"`. -/
def fmt_x : List Directive := [.conv none .x]

/-- The format `"%d"`. -/
def fmt_d : List Directive := [.conv none .d]

/-- The format `"%o"`. -/
def fmt_o : List Directive := [.conv none .o]

/-- The format `"%i"`. -/
def fmt_i : List Directive := [.conv none .i]

/-- The format `"%d.%09d"` of the timestamp lookup. -/
def fmt_timestamp : List Directive := [.conv none .d, .lit '.', .conv (some 9) .d]

/-- The format `"%d.%d.%d"` of the firmware-version lookup. -/
def fmt_version : List Directive :=
  [.conv none .d, .lit '.', .conv none .d, .lit '.', .conv none .d]

/-- The format `"%d-%d.%d"` of the firmware-version lookup. -/
def fmt_date : List Directive :=
  [.conv none .d, .lit '-', .conv none .d, .lit '.', .conv none .d]

/-! ## The typed lookups -/

/-- Modelled from the spec: the default value of the parameter `base` of
`lookupInt` is given in `mattak/RunInfo.h`, which is not among the sources; the
spec says the default auto-detects decimal, hexadecimal and octal by prefix,
which is what every base other than 8, 10 and 16 selects. -/
def defaultBase : Int := 0

/-- The member function `lookupInt`. -/
def lookupInt (kvp : Kvp) (key : Str) (val : Option Int) (base : Int) : Int × Option Int :=
  let str := lookup kvp key
  if str = [] then (1, val)
  else
    let r := sscanf str
      (if base = 16 then fmt_x else if base = 10 then fmt_d else if base = 8 then fmt_o
       else fmt_i)
    let maybe_val := r.assigned.getD 0 0
    if 1 ≠ r.count then (1, val)
    else (0, val.map (fun _ => maybe_val))

/-- The member function `lookupFloat`. The conversion `%f` of the C library is
the parameter `scanf_f`. The statement `if (1!=sscanf(...)) ;` has the empty
statement as its body, so the block `return 1;` that follows it is executed
whatever `sscanf` returns, and the assignment to `*val` is never reached. -/
def lookupFloat {F : Type} (scanf_f : Str → Option F) (kvp : Kvp) (key : Str)
    (val : Option F) : Int × Option F :=
  let str := lookup kvp key
  if str = [] then (1, val)
  else
    let tmp := scanf_f str
    let _skip : Unit := if tmp.isNone then () else ()
    (1, val)

/-- The class `TTimeStamp` of ROOT, as far as it is used: seconds and
nanoseconds. -/
structure TTimeStamp where
  fSec : Int
  fNanoSec : Int
  deriving DecidableEq, Repr

/-- The member function `TTimeStamp::SetSec`. -/
def TTimeStamp.SetSec (t : TTimeStamp) (sec : Int) : TTimeStamp := { t with fSec := sec }

/-- The member function `TTimeStamp::SetNanoSec`. -/
def TTimeStamp.SetNanoSec (t : TTimeStamp) (nsec : Int) : TTimeStamp :=
  { t with fNanoSec := nsec }

/-- The member function `lookupTimeStamp`. -/
def lookupTimeStamp (kvp : Kvp) (key : Str) (val : Option TTimeStamp) :
    Int × Option TTimeStamp :=
  let str := lookup kvp key
  if str = [] then (1, val)
  else
    let r := sscanf str fmt_timestamp
    let sec := r.assigned.getD 0 0
    let nsec := r.assigned.getD 1 0
    if 2 ≠ r.count then (1, val)
    else (0, val.map (fun t => (t.SetSec sec).SetNanoSec nsec))

/-- Modelled from the spec: the struct `FirmwareVersion` is declared in
`mattak/RunInfo.h`, which is not among the sources; its six fields are the ones
`lookupFirmwareVersion` passes to `%d`. -/
structure FirmwareVersion where
  major : Int
  minor : Int
  rev : Int
  year : Int
  month : Int
  day : Int
  deriving DecidableEq, Repr

/-- The stores of `sscanf(ver, "%d.%d.%d", &val->major, &val->minor, &val->rev)`:
the values converted go to `major`, `minor` and `rev`, in this order. -/
def storeVersion (v : FirmwareVersion) : List Int → FirmwareVersion
  | [] => v
  | [a] => { v with major := a }
  | [a, b] => { v with major := a, minor := b }
  | a :: b :: c :: _ => { v with major := a, minor := b, rev := c }

/-- The stores of `sscanf(ver, "%d-%d.%d", &val->year, &val->month, &val->day)`:
the values converted go to `year`, `month` and `day`, in this order. -/
def storeDate (v : FirmwareVersion) : List Int → FirmwareVersion
  | [] => v
  | [a] => { v with year := a }
  | [a, b] => { v with year := a, month := b }
  | a :: b :: c :: _ => { v with year := a, month := b, day := c }

/-- The member function `lookupFirmwareVersion`. The second `sscanf` runs only
when the first one has not returned 3. -/
def lookupFirmwareVersion (kvp : Kvp) (verkey datekey : Str) (val : Option FirmwareVersion) :
    Int × Option FirmwareVersion :=
  let ver := lookup kvp verkey
  let date := lookup kvp datekey
  if ver = [] ∨ date = [] then (1, val)
  else
    match val with
    | none => (1, none)
    | some v =>
      let r1 := sscanf ver fmt_version
      let v1 := storeVersion v r1.assigned
      if 3 ≠ r1.count then
        let r2 := sscanf ver fmt_date
        let v2 := storeDate v1 r2.assigned
        (if 3 ≠ r2.count then 1 else 0, some v2)
      else (0, some v1)

/-! ## The record and its constructor -/

/-- Modelled from the spec: the data members of `mattak::RunInfo` are declared
in `mattak/RunInfo.h`, which is not among the sources; these are the members
the constructor assigns, with the types the spec gives them. `F` is the type
`float`. -/
structure RunInfo (F : Type) where
  mattak_version : Str
  librnog_version : Str
  daq_version : Str
  station : Int
  run : Int
  radiant_sample_rate : F
  MB_free_data_partition : F
  MB_free_main_partition : F
  run_start_time : TTimeStamp
  run_end_time : TTimeStamp
  radiant_fpga : FirmwareVersion
  radiant_bm : FirmwareVersion
  flower : FirmwareVersion
  kvp : Kvp

/-- The pointee after a call through the pointer `&field`, which is never
null. -/
def pointee {α : Type} (old : α) (r : Int × Option α) : α := r.2.getD old

/-- The constructor `RunInfo::RunInfo(const char * auxdir)`. The parameters are
the result of `mattak::version()`, the `%f` conversion of the C library, the
lines of `auxdir/runinfo.txt`, and the state of the members before the
constructor body runs. -/
def RunInfo.construct {F : Type} (version : Str) (scanf_f : Str → Option F)
    (lines : List Str) (init : RunInfo F) : RunInfo F :=
  let kvp := buildKvp lines
  { mattak_version := version
    kvp := kvp
    librnog_version := lookup kvp "LIB-RNO-G-GIT-HASH".toList
    daq_version := lookup kvp "RNO-G-ICE-SOFTWARE-GIT-HASH".toList
    station := pointee init.station (lookupInt kvp "STATION".toList (some init.station) defaultBase)
    run := pointee init.run (lookupInt kvp "RUN".toList (some init.run) defaultBase)
    radiant_sample_rate := pointee init.radiant_sample_rate
      (lookupFloat scanf_f kvp "RADIANT-SAMPLE-RATE".toList (some init.radiant_sample_rate))
    MB_free_data_partition := pointee init.MB_free_data_partition
      (lookupFloat scanf_f kvp "FREE-SPACE-MB-OUTPUT-PARTITION".toList
        (some init.MB_free_data_partition))
    MB_free_main_partition := pointee init.MB_free_main_partition
      (lookupFloat scanf_f kvp "FREE-SPACE-MB-RUNFILE-PARTITION".toList
        (some init.MB_free_main_partition))
    run_start_time := pointee init.run_start_time
      (lookupTimeStamp kvp "RUN-START-TIME".toList (some init.run_start_time))
    run_end_time := pointee init.run_end_time
      (lookupTimeStamp kvp "RUN-END-TIME".toList (some init.run_end_time))
    radiant_fpga := pointee init.radiant_fpga
      (lookupFirmwareVersion kvp "RADIANT-FPGA-FWVER".toList "RADIANT-FPGA-FWDATE".toList
        (some init.radiant_fpga))
    radiant_bm := pointee init.radiant_bm
      (lookupFirmwareVersion kvp "RADIANT-BM-FWVER".toList "RADIANT-BM-FWDATE".toList
        (some init.radiant_bm))
    flower := pointee init.flower
      (lookupFirmwareVersion kvp "FLOWER-FWVER".toList "FLOWER-FWDATE".toList
        (some init.flower)) }

/-- The second part of the constructor, after the loop that fills `kvp`
(the statements under `now let's fill in things we can find`), as a function of
the store. -/
def RunInfo.fillFields {F : Type} (version : Str) (scanf_f : Str → Option F)
    (kvp : Kvp) (init : RunInfo F) : RunInfo F :=
  { mattak_version := version
    kvp := kvp
    librnog_version := lookup kvp "LIB-RNO-G-GIT-HASH".toList
    daq_version := lookup kvp "RNO-G-ICE-SOFTWARE-GIT-HASH".toList
    station := pointee init.station (lookupInt kvp "STATION".toList (some init.station) defaultBase)
    run := pointee init.run (lookupInt kvp "RUN".toList (some init.run) defaultBase)
    radiant_sample_rate := pointee init.radiant_sample_rate
      (lookupFloat scanf_f kvp "RADIANT-SAMPLE-RATE".toList (some init.radiant_sample_rate))
    MB_free_data_partition := pointee init.MB_free_data_partition
      (lookupFloat scanf_f kvp "FREE-SPACE-MB-OUTPUT-PARTITION".toList
        (some init.MB_free_data_partition))
    MB_free_main_partition := pointee init.MB_free_main_partition
      (lookupFloat scanf_f kvp "FREE-SPACE-MB-RUNFILE-PARTITION".toList
        (some init.MB_free_main_partition))
    run_start_time := pointee init.run_start_time
      (lookupTimeStamp kvp "RUN-START-TIME".toList (some init.run_start_time))
    run_end_time := pointee init.run_end_time
      (lookupTimeStamp kvp "RUN-END-TIME".toList (some init.run_end_time))
    radiant_fpga := pointee init.radiant_fpga
      (lookupFirmwareVersion kvp "RADIANT-FPGA-FWVER".toList "RADIANT-FPGA-FWDATE".toList
        (some init.radiant_fpga))
    radiant_bm := pointee init.radiant_bm
      (lookupFirmwareVersion kvp "RADIANT-BM-FWVER".toList "RADIANT-BM-FWDATE".toList
        (some init.radiant_bm))
    flower := pointee init.flower
      (lookupFirmwareVersion kvp "FLOWER-FWVER".toList "FLOWER-FWDATE".toList
        (some init.flower)) }

/-! ## The trigger records (`mattak/TriggerInfo.h`) -/

/-- The struct `RadiantTriggerInfo`. The array `start_windows` is the list of
its rows, one pair of bytes per channel; the other arrays are the lists of
their elements. -/
structure RadiantTriggerInfo where
  channel_mask : Nat
  start_windows : List (List Nat)
  RF_masks : List Nat
  RF_ncoinc : List Nat
  RF_window : List Nat
  deriving DecidableEq, Repr

/-- The default member initializers of `RadiantTriggerInfo`: `= 0` for the
mask and `= {0}` for each array, which sets every element to zero. The
parameter is the constant `mattak::k::num_radiant_channels` of
`mattak/Constants.h`, which is not among the sources. -/
def defaultRadiantTriggerInfo (num_radiant_channels : Nat) : RadiantTriggerInfo :=
  { channel_mask := 0
    start_windows := List.replicate num_radiant_channels (List.replicate 2 0)
    RF_masks := List.replicate 2 0
    RF_ncoinc := List.replicate 2 0
    RF_window := List.replicate 2 0 }

/-- The struct `LTTriggerInfo`. -/
structure LTTriggerInfo where
  window : Nat
  num_coinc : Nat
  vppmode : Bool
  deriving DecidableEq, Repr

/-- The default member initializers of `LTTriggerInfo`; `bool vppmode = 0` is
`false`. -/
def defaultLTTriggerInfo : LTTriggerInfo :=
  { window := 0, num_coinc := 0, vppmode := false }

/-- The struct `TriggerInfo`. -/
structure TriggerInfo where
  rf_trigger : Bool
  force_trigger : Bool
  pps_trigger : Bool
  ext_trigger : Bool
  radiant_trigger : Bool
  lt_trigger : Bool
  surface_trigger : Bool
  radiant_info : RadiantTriggerInfo
  lt_info : LTTriggerInfo
  deriving DecidableEq, Repr

/-- A default-constructed `TriggerInfo`: every flag has the initializer
`false`, and the two members are default-constructed. -/
def defaultTriggerInfo (num_radiant_channels : Nat) : TriggerInfo :=
  { rf_trigger := false
    force_trigger := false
    pps_trigger := false
    ext_trigger := false
    radiant_trigger := false
    lt_trigger := false
    surface_trigger := false
    radiant_info := defaultRadiantTriggerInfo num_radiant_channels
    lt_info := defaultLTTriggerInfo }

/-! ## Descriptions of input texts used in the statements -/

/-- The decimal text of an integer: a minus sign for a negative number, followed
by the decimal digits of its absolute value without leading zeros. -/
def decimalText (n : Int) : Str :=
  if n < 0 then '-' :: Nat.toDigits 10 n.natAbs else Nat.toDigits 10 n.natAbs

/-- The number `n` written with exactly nine decimal digits, padded with zeros
on the left. -/
def nineDigits (n : Nat) : Str :=
  [Nat.digitChar (n / 100000000 % 10), Nat.digitChar (n / 10000000 % 10),
   Nat.digitChar (n / 1000000 % 10), Nat.digitChar (n / 100000 % 10),
   Nat.digitChar (n / 10000 % 10), Nat.digitChar (n / 1000 % 10),
   Nat.digitChar (n / 100 % 10), Nat.digitChar (n / 10 % 10), Nat.digitChar (n % 10)]

/-- The text with an optional leading sign removed. -/
def afterSign : Str → Str
  | [] => []
  | c :: s => if c = '-' ∨ c = '+' then s else c :: s

/-- The first character of a value after its leading white space and an
optional sign, if there is one. -/
def leadingChar (v : Str) : Option Char := (afterSign (v.dropWhile isspace)).head?

/-- The radix in which `lookupInt` reads digits for a requested base when the
text has no `0` prefix: 16 and 8 for these bases, 10 for every other one. -/
def radixOf (base : Int) : Nat := if base = 16 then 16 else if base = 8 then 8 else 10

/-- The reading of "an integer in base `b`" in the specification: an optional
sign followed by one or more digits of base `b` and nothing else. -/
def isIntegerText (b : Nat) (v : Str) : Bool :=
  !(afterSign v).isEmpty && (afterSign v).all (isDigitOf b)

/-- The reading of "exactly of the shape seconds.nine-decimal-digits" in the
specification: an integer, a `.`, then exactly nine decimal digits and nothing
else. -/
def isTimestampText (v : Str) : Bool :=
  let secs := v.takeWhile (fun c => c != '.')
  let frac := v.drop (secs.length + 1)
  isIntegerText 10 secs && (v.drop secs.length).head? == some '.' &&
    frac.length == 9 && frac.all (isDigitOf 10)

/-- The reading of "the version text matches the pattern" in the
specification: the text is exactly an integer, the separator `sep1`, an
integer, the separator `sep2` and an integer, with nothing before, between or
after them (`major.minor.revision` for two dots, `year-month.day` for a hyphen
and a dot). -/
def isPatternText (sep1 sep2 : Char) (v : Str) : Bool :=
  let a := v.takeWhile (fun c => c != sep1)
  let r1 := v.drop (a.length + 1)
  let b := r1.takeWhile (fun c => c != sep2)
  let c := r1.drop (b.length + 1)
  isIntegerText 10 a && (v.drop a.length).head? == some sep1 &&
    isIntegerText 10 b && (r1.drop b.length).head? == some sep2 && isIntegerText 10 c

/-- The text that follows a leading decimal integer (white space, an optional
sign, one or more digits), if the text starts with one. -/
def skipInt (v : Str) : Option Str :=
  let t := afterSign (v.dropWhile isspace)
  if (t.takeWhile (isDigitOf 10)).isEmpty then none else some (t.dropWhile (isDigitOf 10))

/-- Whether a text starts with three decimal integers, with the separator
`sep1` right after the first and `sep2` right after the second; each integer
may have white space and a sign in front of its digits, and what follows the
third integer is not looked at. This is more than the texts of the exact form
`isPatternText`. -/
def startsWithPattern (sep1 sep2 : Char) (v : Str) : Bool :=
  match skipInt v with
  | some (c1 :: r1) =>
    c1 == sep1 &&
      (match skipInt r1 with
       | some (c2 :: r2) => c2 == sep2 && (skipInt r2).isSome
       | _ => false)
  | _ => false

/-- Whether a text starts with a decimal integer, a `.` and the beginning of a
second decimal integer, each with optional white space and an optional sign in
front of its digits. -/
def startsWithTimestamp (v : Str) : Bool :=
  match skipInt v with
  | some (c :: r) => c == '.' && (leadingChar r).any (isDigitOf 10)
  | _ => false

/-- Whether a character is neither a space nor a tab. -/
def notBlank (c : Char) : Bool := !(c == ' ' || c == '\t')

/-- The last character of a string that is neither a space nor a tab, if there
is one. -/
def lastNotBlank (s : Str) : Option Char := (s.filter notBlank).getLast?

/-! ## The store builder -/

theorem find_eq_none_iff (c : Char) (s : Str) : find c s = none ↔ c ∉ s := by
  induction s with
  | nil => simp [find]
  | cons a s ih =>
    by_cases h : a = c
    · simp [find, h]
    · have h2 : ¬ c = a := fun e => h e.symm
      simp [find, h, h2, ih]

theorem find_append_cons (c : Char) (before after : Str) (h : c ∉ before) :
    find c (before ++ c :: after) = some before.length := by
  induction before with
  | nil => simp [find]
  | cons a s ih =>
    have ha : ¬ a = c := fun e => h (by simp [e])
    have hs : c ∉ s := fun e => h (by simp [e])
    simp [find, ha, ih hs]

theorem Kvp.find_assign_same (k v : Str) (m : Kvp) : Kvp.find k (Kvp.assign k v m) = some v := by
  induction m with
  | nil => simp [Kvp.assign, Kvp.find]
  | cons p m ih =>
    obtain ⟨k1, v1⟩ := p
    by_cases h : k1 = k
    · simp [Kvp.assign, Kvp.find, h]
    · simp [Kvp.assign, Kvp.find, h, ih]

theorem Kvp.find_assign_other (k k2 v : Str) (m : Kvp) (hk : k ≠ k2) :
    Kvp.find k2 (Kvp.assign k v m) = Kvp.find k2 m := by
  induction m with
  | nil => simp [Kvp.assign, Kvp.find, hk]
  | cons p m ih =>
    obtain ⟨k1, v1⟩ := p
    by_cases h : k1 = k
    · subst h
      simp [Kvp.assign, Kvp.find, hk]
    · by_cases h2 : k1 = k2
      · subst h2
        simp [Kvp.assign, Kvp.find, h]
      · simp [Kvp.assign, Kvp.find, h, h2, ih]

theorem Kvp.mem_keys_assign (k k2 v : Str) (m : Kvp) :
    k2 ∈ Kvp.keys (Kvp.assign k v m) ↔ k2 = k ∨ k2 ∈ Kvp.keys m := by
  induction m with
  | nil => simp [Kvp.assign, Kvp.keys]
  | cons p m ih =>
    obtain ⟨k1, v1⟩ := p
    by_cases h : k1 = k
    · subst h
      simp [Kvp.assign, Kvp.keys]
    · simp only [Kvp.keys] at ih
      simp only [Kvp.assign, h, if_false, Kvp.keys, List.map_cons, List.mem_cons, ih]
      tauto

theorem Kvp.nodup_keys_assign (k v : Str) (m : Kvp) (h : (Kvp.keys m).Nodup) :
    (Kvp.keys (Kvp.assign k v m)).Nodup := by
  induction m with
  | nil => simp [Kvp.assign, Kvp.keys]
  | cons p m ih =>
    obtain ⟨k1, v1⟩ := p
    have hm : (Kvp.keys m).Nodup := by
      simp only [Kvp.keys, List.map_cons, List.nodup_cons] at h
      exact h.2
    have hk1 : k1 ∉ Kvp.keys m := by
      simp only [Kvp.keys, List.map_cons, List.nodup_cons] at h
      exact h.1
    by_cases hk : k1 = k
    · simpa [Kvp.assign, hk, Kvp.keys] using h
    · have h3 : k1 ∉ Kvp.keys (Kvp.assign k v m) := by
        rw [Kvp.mem_keys_assign]
        rintro (e | e)
        · exact hk e
        · exact hk1 e
      have h4 := ih hm
      simp only [Kvp.keys] at h3 h4
      simp only [Kvp.assign, hk, if_false, Kvp.keys, List.map_cons, List.nodup_cons]
      exact ⟨h3, h4⟩

theorem processLine_nodup (m : Kvp) (line : Str) (h : (Kvp.keys m).Nodup) :
    (Kvp.keys (processLine m line)).Nodup := by
  unfold processLine
  cases find '=' line with
  | none => exact h
  | some pos => exact Kvp.nodup_keys_assign _ _ _ h

theorem foldl_processLine_nodup (lines : List Str) :
    ∀ m : Kvp, (Kvp.keys m).Nodup → (Kvp.keys (lines.foldl processLine m)).Nodup := by
  induction lines with
  | nil => intro m h; exact h
  | cons l ls ih => intro m h; exact ih _ (processLine_nodup m l h)

theorem foldl_processLine_find (k : Str) (post : List Str)
    (hpost : ∀ l ∈ post, ∀ p, find '=' l = some p → trim (l.take p) ≠ k) :
    ∀ m : Kvp, Kvp.find k (post.foldl processLine m) = Kvp.find k m := by
  induction post with
  | nil => intro m; rfl
  | cons l ls ih =>
    intro m
    have hl := hpost l (by simp)
    have hls : ∀ l2 ∈ ls, ∀ p, find '=' l2 = some p → trim (l2.take p) ≠ k :=
      fun l2 h2 => hpost l2 (by simp [h2])
    rw [List.foldl_cons, ih hls]
    unfold processLine
    cases hf : find '=' l with
    | none => rfl
    | some pos => exact Kvp.find_assign_other _ _ _ _ (hl pos hf)

theorem processLine_of_not_mem (m : Kvp) (line : Str) (h : '=' ∉ line) :
    processLine m line = m := by
  unfold processLine
  rw [(find_eq_none_iff '=' line).mpr h]

theorem foldl_processLine_filter (lines : List Str) :
    ∀ m : Kvp, (lines.filter (fun l => decide ('=' ∈ l))).foldl processLine m
      = lines.foldl processLine m := by
  induction lines with
  | nil => intro m; rfl
  | cons l ls ih =>
    intro m
    by_cases h : '=' ∈ l
    · simp [List.filter, h, ih]
    · simp [List.filter, h, ih, processLine_of_not_mem m l h]

/-! ## Claims about the store builder -/

/-- C1 (defect in `trim`): the line `STATION=21` is stored under the key `N`,
the last character of the text before the `=`, and not under `STATION`; the
lookup of `STATION` in the store built from that line gives the empty string
and not `21`. -/
theorem C1_station_line_stored_under_last_char :
    trim "STATION".toList = "N".toList ∧
    buildKvp ["STATION=21".toList] = [("N".toList, "21".toList)] ∧
    lookup (buildKvp ["STATION=21".toList]) "STATION".toList = [] := by
  decide

/-- C2 (defects in `trim` and `lookupFloat`): for the file with the lines
`STATION=21`, `RUN=105`, `RADIANT-SAMPLE-RATE=3.2` and
`RUN-START-TIME=1690000000.500000000` the store holds only the keys `N` and
`E`, so the constructor leaves `station`, `run`, `radiant_sample_rate` and
`run_start_time` at the values they had before, and the lookups of `STATION`
and of `RADIANT-SAMPLE-RATE` report status 1. -/
theorem C2_end_to_end_leaves_fields_unset {F : Type} (version : Str)
    (scanf_f : Str → Option F) (init : RunInfo F) :
    let lines := ["STATION=21".toList, "RUN=105".toList, "RADIANT-SAMPLE-RATE=3.2".toList,
      "RUN-START-TIME=1690000000.500000000".toList]
    let r := RunInfo.construct version scanf_f lines init
    r.kvp = [("N".toList, "105".toList), ("E".toList, "1690000000.500000000".toList)] ∧
    r.station = init.station ∧ r.run = init.run ∧
    r.radiant_sample_rate = init.radiant_sample_rate ∧
    r.run_start_time = init.run_start_time ∧
    (lookupInt r.kvp "STATION".toList (some init.station) defaultBase).1 = 1 ∧
    (lookupFloat scanf_f r.kvp "RADIANT-SAMPLE-RATE".toList
      (some init.radiant_sample_rate)).1 = 1 := by
  intro lines r
  have hk : buildKvp lines
      = [("N".toList, "105".toList), ("E".toList, "1690000000.500000000".toList)] := by
    decide
  refine ⟨hk, ?_, ?_, ?_, ?_, ?_, ?_⟩ <;>
    simp only [r, RunInfo.construct, hk] <;> rfl

/-- C3: when a line with an `=` is followed only by lines that store a different
key (or none), the value stored under its key after the build is the value of
that line, whatever earlier lines stored under the same key; and the store
built from any list of lines has no key twice. -/
theorem C3_last_line_for_a_key_wins (pre post : List Str) (line : Str) (pos : Nat)
    (hline : find '=' line = some pos)
    (hpost : ∀ l ∈ post, ∀ p, find '=' l = some p → trim (l.take p) ≠ trim (line.take pos)) :
    Kvp.find (trim (line.take pos)) (buildKvp (pre ++ line :: post))
      = some (line.drop (pos + 1)) ∧
    lookup (buildKvp (pre ++ line :: post)) (trim (line.take pos)) = line.drop (pos + 1) ∧
    (∀ lines : List Str, (Kvp.keys (buildKvp lines)).Nodup) := by
  have h1 : Kvp.find (trim (line.take pos)) (buildKvp (pre ++ line :: post))
      = some (line.drop (pos + 1)) := by
    unfold buildKvp
    rw [List.foldl_append, List.foldl_cons, foldl_processLine_find _ post hpost]
    unfold processLine
    rw [hline]
    exact Kvp.find_assign_same _ _ _
  refine ⟨h1, ?_, ?_⟩
  · unfold lookup
    rw [h1]
  · intro lines
    exact foldl_processLine_nodup lines [] (by simp [Kvp.keys])

/-- Witness for C3: of the lines `A=1`, `A=2`, `B=3` the second one decides the
value of `A`. -/
theorem C3_last_line_for_a_key_wins_witness :
    find '=' "A=2".toList = some 1 ∧
    Kvp.find "A".toList (buildKvp ["A=1".toList, "A=2".toList, "B=3".toList])
      = some "2".toList := by
  refine ⟨by decide, ?_⟩
  have h := C3_last_line_for_a_key_wins ["A=1".toList] ["B=3".toList] "A=2".toList 1
    (by decide) (by
      intro l hl p hp
      have hl2 : l = "B=3".toList := by simpa using hl
      subst hl2
      have hp2 : p = 1 := by
        have : find '=' "B=3".toList = some 1 := by decide
        rw [this] at hp
        exact (Option.some.inj hp).symm
      subst hp2
      decide)
  exact h.1

/-- C4: the store built from a list of lines is the store built from the list
without its lines that contain no `=`; such a line leaves the store as it
was. -/
theorem C4_lines_without_separator_are_ignored (lines : List Str) :
    buildKvp (lines.filter (fun l => decide ('=' ∈ l))) = buildKvp lines ∧
    (∀ (kvp : Kvp) (line : Str), '=' ∉ line → processLine kvp line = kvp) :=
  ⟨foldl_processLine_filter lines [], processLine_of_not_mem⟩

/-- Witness for C4: the line `junk` contributes nothing to the store built from
`junk`, `A=1`. -/
theorem C4_lines_without_separator_are_ignored_witness :
    '=' ∉ "junk".toList ∧
    buildKvp ["A=1".toList] = buildKvp ["junk".toList, "A=1".toList] ∧
    processLine [("A".toList, "1".toList)] "junk".toList = [("A".toList, "1".toList)] :=
  ⟨by decide,
   (C4_lines_without_separator_are_ignored ["junk".toList, "A=1".toList]).1,
   (C4_lines_without_separator_are_ignored []).2 _ _ (by decide)⟩

/-- C5: a line containing `=` is a text without `=`, the first `=` and the rest
of the line; it stores exactly that rest, unchanged (blanks and later `=`
included), under the first text passed through `trim`. -/
theorem C5_value_is_text_after_first_separator (kvp : Kvp) (before after : Str)
    (h : '=' ∉ before) :
    processLine kvp (before ++ '=' :: after) = Kvp.assign (trim before) after kvp ∧
    Kvp.find (trim before) (processLine kvp (before ++ '=' :: after)) = some after ∧
    lookup (processLine kvp (before ++ '=' :: after)) (trim before) = after := by
  have h1 : processLine kvp (before ++ '=' :: after) = Kvp.assign (trim before) after kvp := by
    unfold processLine
    rw [find_append_cons '=' before after h]
    simp
  refine ⟨h1, ?_, ?_⟩
  · rw [h1]; exact Kvp.find_assign_same _ _ _
  · unfold lookup
    rw [h1, Kvp.find_assign_same]

/-- Witness for C5: the line `A=b=c ` stores the value `b=c ` under `A`. -/
theorem C5_value_is_text_after_first_separator_witness :
    '=' ∉ "A".toList ∧
    lookup (processLine [] "A=b=c ".toList) "A".toList = "b=c ".toList := by
  refine ⟨by decide, ?_⟩
  exact (C5_value_is_text_after_first_separator [] "A".toList "b=c ".toList (by decide)).2.2

/-! ## Claims about the typed lookups -/

/-- C7: whenever `lookupInt` returns 1, the output holds the value it held
before the call. -/
theorem C7_lookupInt_failure_keeps_output (kvp : Kvp) (key : Str) (val : Option Int)
    (base : Int) (h : (lookupInt kvp key val base).1 = 1) :
    (lookupInt kvp key val base).2 = val := by
  unfold lookupInt at h ⊢
  dsimp only at h ⊢
  generalize sscanf (lookup kvp key) (if base = 16 then fmt_x else if base = 10 then fmt_d
    else if base = 8 then fmt_o else fmt_i) = r at h ⊢
  by_cases h1 : lookup kvp key = []
  · simp [h1]
  · by_cases h2 : r.count = 1
    · have h3 : ¬ (1 ≠ r.count) := by simp [h2]
      rw [if_neg h1, if_neg h3] at h
      simp at h
    · have h3 : 1 ≠ r.count := fun e => h2 e.symm
      rw [if_neg h1, if_pos h3]

/-- Witness for C7: the value `zz` makes the lookup return 1 and the output
keeps its value 7. -/
theorem C7_lookupInt_failure_keeps_output_witness :
    (lookupInt [("K".toList, "zz".toList)] "K".toList (some 7) defaultBase).1 = 1 ∧
    (lookupInt [("K".toList, "zz".toList)] "K".toList (some 7) defaultBase).2 = some 7 :=
  ⟨by decide, C7_lookupInt_failure_keeps_output _ _ _ _ (by decide)⟩

/-- C9 (defect in `lookupFloat`): the float lookup returns 1 and leaves the
output as it was for every store, key and `%f` conversion, also when the stored
value parses as a floating-point number. -/
theorem C9_lookupFloat_always_fails {F : Type} (scanf_f : Str → Option F) (kvp : Kvp)
    (key : Str) (val : Option F) :
    lookupFloat scanf_f kvp key val = (1, val) := by
  by_cases h : lookup kvp key = [] <;> simp [lookupFloat, h]


/-! ## Digits, decimal texts and single conversions -/

theorem isDigitOf_ten_cases (c : Char) (h : isDigitOf 10 c = true) :
    c = '0' ∨ c = '1' ∨ c = '2' ∨ c = '3' ∨ c = '4' ∨ c = '5' ∨ c = '6' ∨ c = '7' ∨
    c = '8' ∨ c = '9' := by
  have hr : 48 ≤ c.toNat ∧ c.toNat ≤ 57 := by
    unfold isDigitOf digitVal at h
    by_contra hn
    rw [if_neg hn] at h
    split_ifs at h <;> simp at h <;> omega
  have hc : c = Char.ofNat c.toNat := (Char.ofNat_toNat c).symm
  obtain ⟨h1, h2⟩ := hr
  have : c.toNat = 48 ∨ c.toNat = 49 ∨ c.toNat = 50 ∨ c.toNat = 51 ∨ c.toNat = 52 ∨
      c.toNat = 53 ∨ c.toNat = 54 ∨ c.toNat = 55 ∨ c.toNat = 56 ∨ c.toNat = 57 := by omega
  rcases this with e | e | e | e | e | e | e | e | e | e <;> rw [e] at hc <;> simp [hc]

theorem digitChar_spec (m : Nat) (h : m < 10) :
    digitVal (Nat.digitChar m) = some m ∧ isDigitOf 10 (Nat.digitChar m) = true ∧
    (Nat.digitChar m = '0' ↔ m = 0) := by
  interval_cases m <;> decide

theorem digitsValue_append_singleton (base : Nat) (ds : Str) (c : Char) :
    digitsValue base (ds ++ [c]) = digitsValue base ds * base + (digitVal c).getD 0 := by
  simp [digitsValue, List.foldl_append]

theorem toDigitsCore_spec (fuel : Nat) : ∀ (n : Nat) (acc : List Char), n < fuel →
    ∃ ds : Str, Nat.toDigitsCore 10 fuel n acc = ds ++ acc ∧
      (∀ c ∈ ds, isDigitOf 10 c = true) ∧
      (∃ c tl, ds = c :: tl ∧ (c = '0' → n = 0 ∧ tl = [])) ∧
      digitsValue 10 ds = n := by
  induction fuel with
  | zero => intro n acc h; omega
  | succ fuel ih =>
    intro n acc hn
    have hd := digitChar_spec (n % 10) (Nat.mod_lt _ (by norm_num))
    by_cases hq : n / 10 = 0
    · have hlt : n < 10 := by omega
      have hm : n % 10 = n := Nat.mod_eq_of_lt hlt
      rw [hm] at hd
      refine ⟨[Nat.digitChar n], ?_, ?_, ⟨_, [], rfl, fun e => ⟨hd.2.2.mp e, rfl⟩⟩, ?_⟩
      · simp [Nat.toDigitsCore, hq, hm]
      · intro c hc
        rw [List.mem_singleton] at hc
        rw [hc]; exact hd.2.1
      · simp [digitsValue, hd.1]
    · obtain ⟨ds, h1, h2, ⟨c, tl, h3, h4⟩, h5⟩ :=
        ih (n / 10) (Nat.digitChar (n % 10) :: acc) (by omega)
      refine ⟨ds ++ [Nat.digitChar (n % 10)], ?_, ?_, ⟨c, tl ++ [Nat.digitChar (n % 10)], ?_, ?_⟩, ?_⟩
      · simp [Nat.toDigitsCore, hq, h1]
      · intro x hx
        rcases List.mem_append.mp hx with hx | hx
        · exact h2 x hx
        · rw [List.mem_singleton] at hx
          rw [hx]; exact hd.2.1
      · rw [h3]; rfl
      · intro e
        exact absurd (h4 e).1 hq
      · rw [digitsValue_append_singleton, h5, hd.1]
        simp only [Option.getD_some]
        omega

theorem toDigits_spec (n : Nat) :
    ∃ c tl, Nat.toDigits 10 n = c :: tl ∧ (∀ x ∈ c :: tl, isDigitOf 10 x = true) ∧
      (c = '0' → n = 0 ∧ tl = []) ∧ digitsValue 10 (c :: tl) = n := by
  obtain ⟨ds, h1, h2, ⟨c, tl, h3, h4⟩, h5⟩ := toDigitsCore_spec (n + 1) n [] (by omega)
  refine ⟨c, tl, ?_, ?_, h4, ?_⟩
  · unfold Nat.toDigits
    rw [h1, h3]; simp
  · rw [← h3]; exact h2
  · rw [← h3]; exact h5

theorem readDigits_append (base : Nat) (rest : Str)
    (hr : ∀ x, rest.head? = some x → isDigitOf base x = false) :
    ∀ (ds : Str) (w : Option Nat), (∀ x ∈ ds, isDigitOf base x = true) →
      (∀ k, w = some k → ds.length ≤ k) → readDigits base w (ds ++ rest) = (ds, rest) := by
  intro ds
  induction ds with
  | nil =>
    intro w _ _
    cases rest with
    | nil => cases w <;> rfl
    | cons x s =>
      have := hr x rfl
      simp [readDigits, this]
  | cons c ds ih =>
    intro w hd hw
    have hc : isDigitOf base c = true := hd c (by simp)
    have hwl : widthLeft w = true := by
      cases w with
      | none => rfl
      | some k =>
        have := hw k rfl
        cases k with
        | zero => simp at this
        | succ k => rfl
    have hrec := ih (decWidth w) (fun x hx => hd x (by simp [hx])) (by
      intro k hk
      cases w with
      | none => simp [decWidth] at hk
      | some k2 =>
        have := hw k2 rfl
        simp only [decWidth, Option.some.injEq] at hk
        simp only [List.length_cons] at this
        omega)
    simp [readDigits, hc, hwl, hrec]

theorem digit_not_space_or_sign (c : Char) (h : isDigitOf 10 c = true) :
    isspace c = false ∧ (c == '-') = false ∧ (c == '+') = false := by
  rcases isDigitOf_ten_cases c h with e | e | e | e | e | e | e | e | e | e <;>
    subst e <;> decide

theorem scanInt_decimal (cv : Conv) (w : Option Nat) (c : Char) (ds rest : Str)
    (hcv : cv = .d ∨ (cv = .i ∧ c ≠ '0'))
    (hc : isDigitOf 10 c = true) (hd : ∀ x ∈ ds, isDigitOf 10 x = true)
    (hr : ∀ x, rest.head? = some x → isDigitOf 10 x = false)
    (hw : ∀ k, w = some k → ds.length + 1 ≤ k) :
    scanInt cv w (c :: ds ++ rest) = .ok (storeInt cv false (digitsValue 10 (c :: ds))) rest := by
  obtain ⟨hsp, hm, hp⟩ := digit_not_space_or_sign c hc
  have hwl : widthLeft w = true := by
    cases w with
    | none => rfl
    | some k =>
      have := hw k rfl
      cases k with
      | zero => simp at this
      | succ k => rfl
  have hdw : ∀ k, decWidth w = some k → ds.length ≤ k := by
    intro k hk
    cases w with
    | none => simp [decWidth] at hk
    | some k2 =>
      have := hw k2 rfl
      simp only [decWidth, Option.some.injEq] at hk
      omega
  unfold scanInt
  simp only [List.cons_append, List.dropWhile, hsp, hm, hp, Bool.or_false, Bool.false_eq_true,
    if_false, hwl, Bool.true_and, List.head?_cons, List.tail_cons]
  by_cases h0 : c = '0'
  · subst h0
    have hcvd : cv = .d := by
      rcases hcv with h | h
      · exact h
      · exact absurd rfl h.2
    subst hcvd
    have hrd := readDigits_append 10 rest hr ds (decWidth w) hd hdw
    simp [Conv.base, hrd]
  · have hrd := readDigits_append 10 rest hr (c :: ds) w
      (by intro x hx; rcases List.mem_cons.mp hx with e | e; exact e ▸ hc; exact hd x e)
      (by intro k hk; simpa using hw k hk)
    have hb : Conv.base cv = 10 ∨ Conv.base cv = 0 := by
      rcases hcv with h | h
      · left; rw [h]; rfl
      · right; rw [h.1]; rfl
    simp only [List.cons_append] at hrd
    rcases hb with hb | hb <;> simp [h0, hb, hrd]

theorem scanInt_negative (cv : Conv) (c : Char) (ds : Str)
    (hcv : cv = .d ∨ (cv = .i ∧ c ≠ '0'))
    (hc : isDigitOf 10 c = true) (hd : ∀ x ∈ ds, isDigitOf 10 x = true) :
    scanInt cv none ('-' :: c :: ds) = .ok (storeInt cv true (digitsValue 10 (c :: ds))) [] := by
  have hsm : isspace '-' = false := by decide
  unfold scanInt
  simp only [List.dropWhile, hsm, beq_self_eq_true, Bool.true_or, if_true, decWidth, widthLeft,
    Bool.true_and, List.head?_cons, List.tail_cons]
  by_cases h0 : c = '0'
  · subst h0
    have hcvd : cv = .d := by
      rcases hcv with h | h
      · exact h
      · exact absurd rfl h.2
    subst hcvd
    have hrd := readDigits_append 10 [] (by simp) ds none hd (by simp)
    simp only [List.append_nil] at hrd
    simp [Conv.base, hrd]
  · have hrd := readDigits_append 10 [] (by simp) (c :: ds) none
      (by intro x hx; rcases List.mem_cons.mp hx with e | e; exact e ▸ hc; exact hd x e)
      (by simp)
    have hb : Conv.base cv = 10 ∨ Conv.base cv = 0 := by
      rcases hcv with h | h
      · left; rw [h]; rfl
      · right; rw [h.1]; rfl
    simp only [List.append_nil] at hrd
    rcases hb with hb | hb <;> simp [h0, hb, hrd]

theorem storeInt_signed_nonneg (cv : Conv) (hcv : cv = .d ∨ cv = .i) (m : Nat)
    (hm : m < 2 ^ 31) : storeInt cv false m = (m : Int) := by
  have hs : cv.isSigned = true := by rcases hcv with h | h <;> rw [h] <;> rfl
  simp only [storeInt, hs, if_true, strtol, toInt32, Bool.false_eq_true, if_false]
  norm_num at hm ⊢
  omega

theorem storeInt_signed_neg (cv : Conv) (hcv : cv = .d ∨ cv = .i) (m : Nat)
    (hm : m ≤ 2 ^ 31) : storeInt cv true m = -(m : Int) := by
  have hs : cv.isSigned = true := by rcases hcv with h | h <;> rw [h] <;> rfl
  simp only [storeInt, hs, if_true, strtol, toInt32]
  norm_num at hm ⊢
  omega

theorem sscanf_single (cv : Conv) (v : Str) (x : Int) (rest : Str)
    (h : scanInt cv none v = .ok x rest) : sscanf v [.conv none cv] = ⟨1, [x]⟩ := by
  simp [sscanf, sscanfLoop, h]

theorem lookupInt_of_sscanf (kvp : Kvp) (key : Str) (old : Int) (base : Int) (x : Int)
    (hne : lookup kvp key ≠ [])
    (h : sscanf (lookup kvp key) (if base = 16 then fmt_x else if base = 10 then fmt_d
      else if base = 8 then fmt_o else fmt_i) = ⟨1, [x]⟩) :
    lookupInt kvp key (some old) base = (0, some x) := by
  unfold lookupInt
  simp only [hne, if_false, h]
  simp


theorem scanInt_decimalText (cv : Conv) (hcv : cv = .d ∨ cv = .i) (n : Int)
    (hlo : -(2 ^ 31) ≤ n) (hhi : n < 2 ^ 31) (rest : Str)
    (hr : ∀ x, rest.head? = some x → isDigitOf 10 x = false)
    (hrest : n < 0 ∨ cv = .i → rest = []) :
    scanInt cv none (decimalText n ++ rest) = .ok n rest := by
  obtain ⟨c, tl, hdig, hall, hzero, hv⟩ := toDigits_spec n.natAbs
  have hc : isDigitOf 10 c = true := hall c (by simp)
  have htl : ∀ x ∈ tl, isDigitOf 10 x = true := fun x hx => hall x (by simp [hx])
  unfold decimalText
  by_cases hneg : n < 0
  · have hc0 : c ≠ '0' := by
      intro e
      have := (hzero e).1
      omega
    have hcv2 : cv = .d ∨ (cv = .i ∧ c ≠ '0') := by
      rcases hcv with h | h
      · exact Or.inl h
      · exact Or.inr ⟨h, hc0⟩
    rw [if_pos hneg, hdig, hrest (Or.inl hneg), List.append_nil, scanInt_negative cv c tl hcv2 hc htl, hv,
      storeInt_signed_neg cv hcv _ (by norm_num at hlo ⊢; omega)]
    congr 1
    omega
  · rw [if_neg hneg, hdig]
    have hval : storeInt cv false n.natAbs = n := by
      rw [storeInt_signed_nonneg cv hcv _ (by norm_num at hhi ⊢; omega)]
      omega
    by_cases hc0 : c = '0'
    · obtain ⟨hn0, htl0⟩ := hzero hc0
      have hn : n = 0 := by omega
      subst hc0 htl0 hn
      cases rest with
      | nil => rcases hcv with h | h <;> subst h <;> decide
      | cons x s =>
        have hx := hr x rfl
        rcases hcv with h | h
        · subst h
          have := scanInt_decimal .d none '0' [] (x :: s) (Or.inl rfl) (by decide) (by simp) hr
            (by simp)
          simpa using this
        · exact absurd (hrest (Or.inr h)) (by simp)
    · have hcv2 : cv = .d ∨ (cv = .i ∧ c ≠ '0') := by
        rcases hcv with h | h
        · exact Or.inl h
        · exact Or.inr ⟨h, hc0⟩
      rw [scanInt_decimal cv none c tl rest hcv2 hc htl hr (by simp), hv, hval]


theorem decimalText_ne_nil (n : Int) : decimalText n ≠ [] := by
  obtain ⟨c, tl, hdig, -, -, -⟩ := toDigits_spec n.natAbs
  unfold decimalText
  split <;> simp [hdig]

theorem digitsValue_nineDigits (n : Nat) (hn : n ≤ 999999999) :
    digitsValue 10 (nineDigits n) = n := by
  have h := fun m => (digitChar_spec (m % 10) (Nat.mod_lt _ (by norm_num))).1
  simp only [digitsValue, nineDigits, List.foldl_cons, List.foldl_nil, h, Option.getD_some]
  omega

theorem isDigitOf_nineDigits (n : Nat) : ∀ x ∈ nineDigits n, isDigitOf 10 x = true := by
  have h := fun m => (digitChar_spec (m % 10) (Nat.mod_lt _ (by norm_num))).2.1
  intro x hx
  simp only [nineDigits, List.mem_cons, List.mem_singleton, List.not_mem_nil, or_false] at hx
  rcases hx with e | e | e | e | e | e | e | e | e <;> rw [e] <;> exact h _

/-! ## Claims about the integer and timestamp lookups -/

/-- C6: when the stored value is the decimal text of an integer `n` of the
range of a 32-bit `int`, the integer lookup with the default base (and with
every base other than 8 and 16) returns 0 and writes `n`. -/
theorem C6_lookupInt_reads_decimal_text (kvp : Kvp) (key : Str) (n old base : Int)
    (hlo : -(2 ^ 31) ≤ n) (hhi : n < 2 ^ 31) (hval : lookup kvp key = decimalText n)
    (hbase : base = defaultBase ∨ (base ≠ 16 ∧ base ≠ 8)) :
    lookupInt kvp key (some old) base = (0, some n) := by
  have hb : base ≠ 16 ∧ base ≠ 8 := by
    rcases hbase with h | h
    · rw [h]; decide
    · exact h
  apply lookupInt_of_sscanf
  · rw [hval]; exact decimalText_ne_nil n
  · rw [hval, if_neg hb.1]
    by_cases h10 : base = 10
    · rw [if_pos h10]
      have := scanInt_decimalText .d (Or.inl rfl) n hlo hhi [] (by simp) (by simp)
      rw [List.append_nil] at this
      exact sscanf_single _ _ _ _ this
    · rw [if_neg h10, if_neg hb.2]
      have := scanInt_decimalText .i (Or.inr rfl) n hlo hhi [] (by simp) (by simp)
      rw [List.append_nil] at this
      exact sscanf_single _ _ _ _ this

/-- Witness for C6: the value `42` with the default base gives status 0 and the
output 42. -/
theorem C6_lookupInt_reads_decimal_text_witness :
    lookup [("K".toList, "42".toList)] "K".toList = decimalText 42 ∧
    lookupInt [("K".toList, "42".toList)] "K".toList (some 7) defaultBase = (0, some 42) :=
  ⟨by decide, C6_lookupInt_reads_decimal_text _ _ 42 7 defaultBase (by decide) (by decide)
    (by decide) (Or.inl rfl)⟩

/-- C10: when the stored value is the decimal text of the seconds `s < 2^31`, a
`.` and the nanoseconds `n ≤ 999999999` written with exactly nine digits, the
timestamp lookup returns 0 and sets the seconds to `s` and the nanoseconds to
`n`. -/
theorem C10_lookupTimeStamp_reads_nine_digit_text (kvp : Kvp) (key : Str) (s n : Nat)
    (t : TTimeStamp) (hs : s < 2 ^ 31) (hn : n ≤ 999999999)
    (hval : lookup kvp key = decimalText s ++ '.' :: nineDigits n) :
    lookupTimeStamp kvp key (some t) = (0, some ⟨s, n⟩) := by
  have h1 := scanInt_decimalText .d (Or.inl rfl) (s : Int) (by omega) (by exact_mod_cast hs)
    ('.' :: nineDigits n) (by intro x hx; simp at hx; rw [← hx]; decide)
    (by intro h; rcases h with h | h; omega; exact absurd h (by decide))
  have h2 : scanInt .d (some 9) (nineDigits n) = .ok (n : Int) [] := by
    have hall := isDigitOf_nineDigits n
    have hv := digitsValue_nineDigits n hn
    have := scanInt_decimal .d (some 9) (Nat.digitChar (n / 100000000 % 10))
      (nineDigits n).tail [] (Or.inl rfl) (hall _ (by simp [nineDigits]))
      (fun x hx => hall x (by simp [nineDigits] at hx ⊢; tauto)) (by simp)
      (by intro k hk; simp only [Option.some.injEq] at hk; subst hk; simp [nineDigits])
    have he : Nat.digitChar (n / 100000000 % 10) :: (nineDigits n).tail = nineDigits n := rfl
    rw [List.append_nil, he, hv, storeInt_signed_nonneg .d (Or.inl rfl) n
      (by norm_num; omega)] at this
    exact this
  have hne : decimalText s ++ '.' :: nineDigits n ≠ [] := by simp
  unfold lookupTimeStamp
  simp only [hval, hne, if_false, sscanf, fmt_timestamp, sscanfLoop, h1, h2]
  simp [TTimeStamp.SetSec, TTimeStamp.SetNanoSec]

/-- Witness for C10: the value `1700000000.000000001` gives the seconds
1700000000 and the nanoseconds 1. -/
theorem C10_lookupTimeStamp_reads_nine_digit_text_witness :
    lookup [("K".toList, "1700000000.000000001".toList)] "K".toList
      = decimalText (1700000000 : Nat) ++ '.' :: nineDigits 1 ∧
    lookupTimeStamp [("K".toList, "1700000000.000000001".toList)] "K".toList (some ⟨0, 0⟩)
      = (0, some ⟨(1700000000 : Nat), (1 : Nat)⟩) :=
  ⟨by decide, C10_lookupTimeStamp_reads_nine_digit_text _ _ 1700000000 1 ⟨0, 0⟩ (by norm_num)
    (by norm_num) (by decide)⟩


/-! ## Conversions in the bases 8 and 16, and failing conversions -/

theorem digit_toNat_range (b : Nat) (c : Char) (h : isDigitOf b c = true) :
    (48 ≤ c.toNat ∧ c.toNat ≤ 57) ∨ (65 ≤ c.toNat ∧ c.toNat ≤ 70) ∨
      (97 ≤ c.toNat ∧ c.toNat ≤ 102) := by
  unfold isDigitOf digitVal at h
  by_contra hn
  simp only [not_or] at hn
  rw [if_neg hn.1, if_neg hn.2.2, if_neg hn.2.1] at h
  simp at h

theorem digit_facts (b : Nat) (c : Char) (h : isDigitOf b c = true) :
    isspace c = false ∧ (c == '-') = false ∧ (c == '+') = false ∧ (c == 'x') = false ∧
      (c == 'X') = false := by
  have hr := digit_toNat_range b c h
  refine ⟨?_, ?_, ?_, ?_, ?_⟩
  · cases hs : isspace c with
    | false => rfl
    | true =>
      exfalso
      simp only [isspace, Bool.or_eq_true, beq_iff_eq] at hs
      rcases hs with ((((e | e) | e) | e) | e) | e <;> subst e <;> revert hr <;> decide
  all_goals
    rw [beq_eq_false_iff_ne]
    intro e
    subst e
    revert hr
    decide

theorem zero_isDigitOf (b : Nat) (hb : 0 < b) : isDigitOf b '0' = true := by
  have : digitVal '0' = some 0 := by decide
  simp [isDigitOf, this, hb]

theorem head_not_x (b : Nat) (ds : Str) (hd : ∀ x ∈ ds, isDigitOf b x = true) :
    (ds.head? == some 'x' || ds.head? == some 'X') = false := by
  cases ds with
  | nil => rfl
  | cons a s =>
    have := digit_facts b a (hd a (by simp))
    simp only [List.head?_cons]
    have h1 : (some a == some 'x') = (a == 'x') := by simp
    have h2 : (some a == some 'X') = (a == 'X') := by simp
    rw [h1, h2, this.2.2.2.1, this.2.2.2.2]
    rfl

theorem scanInt_digits (cv : Conv) (hcv : cv.base ≠ 0) (c : Char) (ds : Str)
    (hc : isDigitOf cv.base c = true) (hd : ∀ x ∈ ds, isDigitOf cv.base x = true) :
    scanInt cv none (c :: ds)
      = .ok (storeInt cv false (digitsValue cv.base (c :: ds))) [] := by
  obtain ⟨hsp, hm, hp, -, -⟩ := digit_facts _ c hc
  have hx := head_not_x _ ds hd
  unfold scanInt
  simp only [List.dropWhile, hsp, hm, hp, Bool.or_false, Bool.false_eq_true,
    if_false, widthLeft, decWidth, Bool.true_and, List.head?_cons, List.tail_cons]
  by_cases h0 : c = '0'
  · subst h0
    have hrd := readDigits_append cv.base [] (by simp) ds none hd (by simp)
    rw [List.append_nil] at hrd
    simp [hx, hcv, hrd]
  · have hrd := readDigits_append cv.base [] (by simp) (c :: ds) none
      (by intro x hx; rcases List.mem_cons.mp hx with e | e; exact e ▸ hc; exact hd x e)
      (by simp)
    rw [List.append_nil] at hrd
    simp [h0, hcv, hrd]

theorem scanInt_auto_hex (xc : Char) (hxc : xc = 'x' ∨ xc = 'X') (ds : Str)
    (hd : ∀ x ∈ ds, isDigitOf 16 x = true) :
    scanInt .i none ('0' :: xc :: ds) = .ok (storeInt .i false (digitsValue 16 ds)) [] := by
  have hrd := readDigits_append 16 [] (by simp) ds none hd (by simp)
  rw [List.append_nil] at hrd
  have hv : digitsValue 16 ('0' :: ds) = digitsValue 16 ds := by
    have : digitVal '0' = some 0 := by decide
    simp [digitsValue, this]
  unfold scanInt
  rcases hxc with e | e <;> subst e <;>
    simp [List.dropWhile, isspace, widthLeft, decWidth, Conv.base, hrd, hv]

theorem scanInt_auto_octal (ds : Str) (hd : ∀ x ∈ ds, isDigitOf 8 x = true) :
    scanInt .i none ('0' :: ds) = .ok (storeInt .i false (digitsValue 8 ds)) [] := by
  have hrd := readDigits_append 8 [] (by simp) ds none hd (by simp)
  rw [List.append_nil] at hrd
  have hx := head_not_x _ ds hd
  have hv : digitsValue 8 ('0' :: ds) = digitsValue 8 ds := by
    have : digitVal '0' = some 0 := by decide
    simp [digitsValue, this]
  unfold scanInt
  simp only [List.dropWhile, widthLeft, decWidth, List.head?_cons, List.tail_cons]
  simp [isspace, hx, Conv.base, hrd, hv]

theorem storeInt_nonneg (cv : Conv) (m : Nat) (hm : m < 2 ^ 31) :
    storeInt cv false m = (m : Int) := by
  cases cv
  · exact storeInt_signed_nonneg _ (Or.inl rfl) m hm
  · exact storeInt_signed_nonneg _ (Or.inr rfl) m hm
  all_goals
    have h2 : ¬ (2 ^ 64 - 1 < m) := by norm_num at hm ⊢; omega
    simp only [storeInt, Conv.isSigned, Bool.false_eq_true, if_false, strtoul, toInt32, h2]
    norm_num at hm ⊢
    omega

theorem scanInt_after_sign_no_digit (cv : Conv) (neg : Bool) (s1 : Str)
    (h : ∀ c, s1.head? = some c → isDigitOf (if cv.base = 0 then 10 else cv.base) c = false)
    (hb : cv.base = 0 ∨ 0 < cv.base) :
    (let zero := widthLeft none && s1.head? == some '0'
     let w2 := if zero then decWidth none else none
     let s2 := if zero then s1.tail else s1
     let isx := zero && widthLeft w2 && (s2.head? == some 'x' || s2.head? == some 'X')
     let base :=
       if isx then (if cv.base = 0 then 16 else cv.base)
       else if zero && cv.base == 0 then 8
       else if cv.base = 0 then 10 else cv.base
     let skipx := isx && base == 16
     let w3 := if skipx then decWidth w2 else w2
     let s3 := if skipx then s2.tail else s2
     let r := readDigits base w3 s3
     let buf := (if zero then ['0'] else []) ++ r.1
     if buf = [] then Item.matchFailure
     else Item.ok (storeInt cv neg (digitsValue base buf)) r.2) = Item.matchFailure := by
  have hR : 0 < (if cv.base = 0 then 10 else cv.base) := by
    rcases hb with e | e
    · simp [e]
    · have : cv.base ≠ 0 := by omega
      simp [this, e]
  cases s1 with
  | nil => simp [widthLeft, readDigits]
  | cons x s =>
    have hx := h x rfl
    have hx0 : x ≠ '0' := by
      intro e
      rw [e, zero_isDigitOf _ hR] at hx
      exact absurd hx (by decide)
    have hz : (some x == some '0') = false := by simp [hx0]
    simp only [List.head?_cons, hz, Bool.and_false, Bool.false_and, Bool.false_eq_true, if_false]
    simp [readDigits, widthLeft, hx]

theorem scanInt_no_digit (cv : Conv) (v : Str)
    (h : ∀ c, leadingChar v = some c →
      isDigitOf (if cv.base = 0 then 10 else cv.base) c = false)
    (hb : cv.base = 0 ∨ 0 < cv.base) :
    scanInt cv none v = .inputFailure ∨ scanInt cv none v = .matchFailure := by
  unfold leadingChar at h
  unfold scanInt
  cases hdw : v.dropWhile isspace with
  | nil => left; rfl
  | cons c s =>
    right
    rw [hdw] at h
    by_cases hsgn : c = '-' ∨ c = '+'
    · have hs : (c == '-' || c == '+') = true := by
        rcases hsgn with e | e <;> simp [e]
      have ha : afterSign (c :: s) = s := by simp [afterSign, hsgn]
      rw [ha] at h
      simp only [hs, if_true, decWidth]
      exact scanInt_after_sign_no_digit cv _ s h hb
    · have hs : (c == '-' || c == '+') = false := by
        simp only [not_or] at hsgn
        simp [hsgn.1, hsgn.2]
      have ha : afterSign (c :: s) = c :: s := by simp [afterSign, hsgn]
      rw [ha] at h
      simp only [hs, Bool.false_eq_true, if_false]
      exact scanInt_after_sign_no_digit cv _ (c :: s) h hb

theorem lookupInt_of_count_ne (kvp : Kvp) (key : Str) (val : Option Int) (base : Int)
    (h : 1 ≠ (sscanf (lookup kvp key) (if base = 16 then fmt_x else if base = 10 then fmt_d
      else if base = 8 then fmt_o else fmt_i)).count) :
    lookupInt kvp key val base = (1, val) := by
  unfold lookupInt
  dsimp only
  by_cases hne : lookup kvp key = []
  · rw [if_pos hne]
  · rw [if_neg hne, if_pos h]

theorem lookupInt_no_digit (kvp : Kvp) (key : Str) (val : Option Int) (base : Int)
    (h : ∀ c, leadingChar (lookup kvp key) = some c → isDigitOf (radixOf base) c = false) :
    lookupInt kvp key val base = (1, val) := by
  have key1 : ∀ cv : Conv, (if cv.base = 0 then 10 else cv.base) = radixOf base →
      1 ≠ (sscanf (lookup kvp key) [.conv none cv]).count := by
    intro cv hcv
    have hb : cv.base = 0 ∨ 0 < cv.base := by omega
    rcases scanInt_no_digit cv (lookup kvp key) (by rw [hcv]; exact h) hb with e | e <;>
      simp [sscanf, sscanfLoop, e, EOF]
  apply lookupInt_of_count_ne
  by_cases h16 : base = 16
  · rw [if_pos h16]
    exact key1 .x (by rw [h16]; decide)
  · by_cases h10 : base = 10
    · rw [if_neg h16, if_pos h10]
      exact key1 .d (by rw [h10]; decide)
    · by_cases h8 : base = 8
      · rw [if_neg h16, if_neg h10, if_pos h8]
        exact key1 .o (by rw [h8]; decide)
      · rw [if_neg h16, if_neg h10, if_neg h8]
        exact key1 .i (by simp [Conv.base, radixOf, h16, h8])

theorem scanInt_digits_then_text (cv : Conv) (hcv : cv.base ≠ 0) (c : Char) (ds rest : Str)
    (hc : isDigitOf cv.base c = true) (hd : ∀ x ∈ ds, isDigitOf cv.base x = true)
    (hr : ∀ x, rest.head? = some x → isDigitOf cv.base x = false)
    (hnx : cv = .x → c = '0' → ds = [] →
      (rest.head? == some 'x' || rest.head? == some 'X') = false) :
    scanInt cv none (c :: ds ++ rest)
      = .ok (storeInt cv false (digitsValue cv.base (c :: ds))) rest := by
  obtain ⟨hsp, hm, hp, -, -⟩ := digit_facts _ c hc
  unfold scanInt
  simp only [List.cons_append, List.dropWhile, hsp, hm, hp, Bool.or_false, Bool.false_eq_true,
    if_false, widthLeft, decWidth, Bool.true_and, List.head?_cons, List.tail_cons]
  by_cases h0 : c = '0'
  · subst h0
    have hrd := readDigits_append cv.base rest hr ds none hd (by simp)
    cases ds with
    | nil =>
      rw [List.nil_append] at hrd
      cases hb : (rest.head? == some 'x' || rest.head? == some 'X') with
      | false => simp [hb, hcv, hrd]
      | true =>
        cases cv with
        | d =>
          simp only [Conv.base] at hrd
          simp [hb, Conv.base, hrd]
        | i => exact absurd rfl hcv
        | o =>
          simp only [Conv.base] at hrd
          simp [hb, Conv.base, hrd]
        | x =>
          rw [hnx rfl rfl rfl] at hb
          exact absurd hb (by decide)
    | cons d ds2 =>
      have hdx := digit_facts _ d (hd d (List.mem_cons_self d ds2))
      have h1 : d ≠ 'x' := by simpa using hdx.2.2.2.1
      have h2 : d ≠ 'X' := by simpa using hdx.2.2.2.2
      simp only [List.cons_append] at hrd
      simp [h1, h2, hcv, hrd]
  · have hrd := readDigits_append cv.base rest hr (c :: ds) none
      (by intro x hx; rcases List.mem_cons.mp hx with e | e; exact e ▸ hc; exact hd x e)
      (by simp)
    simp only [List.cons_append] at hrd
    simp [h0, hcv, hrd]

theorem scanInt_auto_hex_then_text (xc : Char) (hxc : xc = 'x' ∨ xc = 'X') (ds rest : Str)
    (hd : ∀ x ∈ ds, isDigitOf 16 x = true)
    (hr : ∀ x, rest.head? = some x → isDigitOf 16 x = false) :
    scanInt .i none ('0' :: xc :: ds ++ rest)
      = .ok (storeInt .i false (digitsValue 16 ds)) rest := by
  have hrd := readDigits_append 16 rest hr ds none hd (by simp)
  have hv : digitsValue 16 ('0' :: ds) = digitsValue 16 ds := by
    have : digitVal '0' = some 0 := by decide
    simp [digitsValue, this]
  unfold scanInt
  rcases hxc with e | e <;> subst e <;>
    simp [List.dropWhile, isspace, widthLeft, decWidth, Conv.base, hrd, hv]

theorem scanInt_auto_octal_then_text (ds rest : Str) (hd : ∀ x ∈ ds, isDigitOf 8 x = true)
    (hr : ∀ x, rest.head? = some x → isDigitOf 8 x = false)
    (hnx : ds = [] → (rest.head? == some 'x' || rest.head? == some 'X') = false) :
    scanInt .i none ('0' :: ds ++ rest) = .ok (storeInt .i false (digitsValue 8 ds)) rest := by
  have hrd := readDigits_append 8 rest hr ds none hd (by simp)
  have hx : ((ds ++ rest).head? == some 'x' || (ds ++ rest).head? == some 'X') = false := by
    cases ds with
    | nil =>
      rw [List.nil_append]
      exact hnx rfl
    | cons d ds2 =>
      have := head_not_x _ (d :: ds2) hd
      simp only [List.head?_cons] at this
      rw [List.cons_append]
      simp only [List.head?_cons]
      exact this
  have hv : digitsValue 8 ('0' :: ds) = digitsValue 8 ds := by
    have : digitVal '0' = some 0 := by decide
    simp [digitsValue, this]
  rw [List.cons_append]
  generalize ds ++ rest = t at hrd hx ⊢
  unfold scanInt
  simp only [List.dropWhile, widthLeft, decWidth, List.head?_cons, List.tail_cons]
  simp [isspace, hx, Conv.base, hrd, hv]

/-- C8, as stated, fails: with the requested base 10 the value `12zz`, which is
not an integer in base 10, does not make the lookup return 1. -/
theorem C8_text_after_integer_is_accepted :
    ¬ (∀ (kvp : Kvp) (key : Str) (val : Option Int) (b : Int), (b = 16 ∨ b = 8 ∨ b = 10) →
      isIntegerText (radixOf b) (lookup kvp key) = false → (lookupInt kvp key val b).1 = 1) := by
  intro h
  have h1 := h [("K".toList, "12zz".toList)] "K".toList (some 0) 10 (by decide) (by decide)
  revert h1
  decide

/-- C8, amended: with base 16, 8 or 10 a value that starts with digits of that
base is read as the hexadecimal, octal or decimal number these digits denote;
with any other base, the default included, the radix is taken from the prefix
(`0x` hexadecimal, `0` octal, decimal otherwise). Whatever follows the digits
is ignored and does not make the lookup fail; only an `x` right after a single
leading `0` is not ignored when the radix is 16 or taken from the prefix,
where it starts a hexadecimal number. With every base, a value whose first
character after white space and an optional sign is not a digit of the radix
makes the lookup return 1 and leaves the output as it was. -/
theorem C8_lookupInt_reads_in_requested_base :
    (∀ (kvp : Kvp) (key : Str) (old base : Int) (c : Char) (ds rest : Str),
      (base = 16 ∨ base = 8 ∨ base = 10) → lookup kvp key = c :: ds ++ rest →
      (∀ x ∈ c :: ds, isDigitOf (radixOf base) x = true) →
      (∀ x, rest.head? = some x → isDigitOf (radixOf base) x = false) →
      (base = 16 → c = '0' → ds = [] → rest.head? ≠ some 'x' ∧ rest.head? ≠ some 'X') →
      digitsValue (radixOf base) (c :: ds) < 2 ^ 31 →
      lookupInt kvp key (some old) base
        = (0, some ((digitsValue (radixOf base) (c :: ds) : Nat) : Int))) ∧
    (∀ (kvp : Kvp) (key : Str) (old base : Int) (xc : Char) (ds rest : Str),
      base ≠ 16 → base ≠ 8 → base ≠ 10 → (xc = 'x' ∨ xc = 'X') → ds ≠ [] →
      lookup kvp key = '0' :: xc :: ds ++ rest → (∀ x ∈ ds, isDigitOf 16 x = true) →
      (∀ x, rest.head? = some x → isDigitOf 16 x = false) →
      digitsValue 16 ds < 2 ^ 31 →
      lookupInt kvp key (some old) base = (0, some ((digitsValue 16 ds : Nat) : Int))) ∧
    (∀ (kvp : Kvp) (key : Str) (old base : Int) (ds rest : Str),
      base ≠ 16 → base ≠ 8 → base ≠ 10 →
      lookup kvp key = '0' :: ds ++ rest → (∀ x ∈ ds, isDigitOf 8 x = true) →
      (∀ x, rest.head? = some x → isDigitOf 8 x = false) →
      (ds = [] → rest.head? ≠ some 'x' ∧ rest.head? ≠ some 'X') →
      digitsValue 8 ds < 2 ^ 31 →
      lookupInt kvp key (some old) base = (0, some ((digitsValue 8 ds : Nat) : Int))) ∧
    (∀ (kvp : Kvp) (key : Str) (old base : Int) (c : Char) (ds rest : Str),
      base ≠ 16 → base ≠ 8 → base ≠ 10 → c ≠ '0' →
      lookup kvp key = c :: ds ++ rest → (∀ x ∈ c :: ds, isDigitOf 10 x = true) →
      (∀ x, rest.head? = some x → isDigitOf 10 x = false) →
      digitsValue 10 (c :: ds) < 2 ^ 31 →
      lookupInt kvp key (some old) base
        = (0, some ((digitsValue 10 (c :: ds) : Nat) : Int))) ∧
    (∀ (kvp : Kvp) (key : Str) (val : Option Int) (base : Int),
      (∀ c, leadingChar (lookup kvp key) = some c → isDigitOf (radixOf base) c = false) →
      lookupInt kvp key val base = (1, val)) ∧
    lookupInt [("K".toList, "ff".toList)] "K".toList (some 0) 16 = (0, some 255) ∧
    lookupInt [("K".toList, "17".toList)] "K".toList (some 0) 8 = (0, some 15) ∧
    lookupInt [("K".toList, "17".toList)] "K".toList (some 0) 10 = (0, some 17) ∧
    lookupInt [("K".toList, "0x1F".toList)] "K".toList (some 0) defaultBase = (0, some 31) ∧
    lookupInt [("K".toList, "017".toList)] "K".toList (some 0) defaultBase = (0, some 15) ∧
    lookupInt [("K".toList, "17".toList)] "K".toList (some 0) defaultBase = (0, some 17) ∧
    lookupInt [("K".toList, "12zz".toList)] "K".toList (some 0) 10 = (0, some 12) ∧
    lookupInt [("K".toList, "12 ".toList)] "K".toList (some 0) 10 = (0, some 12) ∧
    lookupInt [("K".toList, "21\r".toList)] "K".toList (some 0) defaultBase = (0, some 21) := by
  have hbool : ∀ rest : Str, (rest.head? ≠ some 'x' ∧ rest.head? ≠ some 'X') →
      (rest.head? == some 'x' || rest.head? == some 'X') = false := by
    intro rest h
    simp [h.1, h.2]
  refine ⟨?_, ?_, ?_, ?_, lookupInt_no_digit, by decide, by decide, by decide, by decide,
    by decide, by decide, by decide, by decide, by decide⟩
  · intro kvp key old base c ds rest hbase hval hall hr hnx hlt
    have hc := hall c (by simp)
    have hd : ∀ x ∈ ds, isDigitOf (radixOf base) x = true := fun x hx => hall x (by simp [hx])
    apply lookupInt_of_sscanf
    · rw [hval]; simp
    · rw [hval]
      rcases hbase with e | e | e <;> subst e
      · have e1 : radixOf 16 = Conv.x.base := by decide
        rw [e1] at hc hd hr hlt ⊢
        have := scanInt_digits_then_text .x (by decide) c ds rest hc hd hr
          (fun _ h1 h2 => hbool rest (hnx rfl h1 h2))
        rw [storeInt_nonneg _ _ hlt] at this
        rw [if_pos rfl]
        exact sscanf_single _ _ _ _ this
      · have e1 : radixOf 8 = Conv.o.base := by decide
        rw [e1] at hc hd hr hlt ⊢
        have := scanInt_digits_then_text .o (by decide) c ds rest hc hd hr
          (fun h _ _ => absurd h (by decide))
        rw [storeInt_nonneg _ _ hlt] at this
        rw [if_neg (by decide), if_neg (by decide), if_pos rfl]
        exact sscanf_single _ _ _ _ this
      · have e1 : radixOf 10 = Conv.d.base := by decide
        rw [e1] at hc hd hr hlt ⊢
        have := scanInt_digits_then_text .d (by decide) c ds rest hc hd hr
          (fun h _ _ => absurd h (by decide))
        rw [storeInt_nonneg _ _ hlt] at this
        rw [if_neg (by decide), if_pos rfl]
        exact sscanf_single _ _ _ _ this
  · intro kvp key old base xc ds rest h16 h8 h10 hxc _ hval hall hr hlt
    apply lookupInt_of_sscanf
    · rw [hval]; simp
    · rw [hval, if_neg h16, if_neg h10, if_neg h8]
      have := scanInt_auto_hex_then_text xc hxc ds rest hall hr
      rw [storeInt_nonneg _ _ hlt] at this
      exact sscanf_single _ _ _ _ this
  · intro kvp key old base ds rest h16 h8 h10 hval hall hr hnx hlt
    apply lookupInt_of_sscanf
    · rw [hval]; simp
    · rw [hval, if_neg h16, if_neg h10, if_neg h8]
      have := scanInt_auto_octal_then_text ds rest hall hr (fun h => hbool rest (hnx h))
      rw [storeInt_nonneg _ _ hlt] at this
      exact sscanf_single _ _ _ _ this
  · intro kvp key old base c ds rest h16 h8 h10 hc0 hval hall hr hlt
    apply lookupInt_of_sscanf
    · rw [hval]; simp
    · rw [hval, if_neg h16, if_neg h10, if_neg h8]
      have := scanInt_decimal .i none c ds rest (Or.inr ⟨rfl, hc0⟩) (hall c (by simp))
        (fun x hx => hall x (by simp [hx])) hr (by simp)
      rw [storeInt_nonneg _ _ hlt] at this
      exact sscanf_single _ _ _ _ this

/-- Witness for the amended C8: with base 16 the value `zz` gives status 1 and
the output keeps its value 7; with base 10 the value `12 `, the digits `12`
followed by a blank, gives status 0 and the number the digits denote. -/
theorem C8_lookupInt_reads_in_requested_base_witness :
    leadingChar (lookup [("K".toList, "zz".toList)] "K".toList) = some 'z' ∧
    isDigitOf (radixOf 16) 'z' = false ∧
    lookupInt [("K".toList, "zz".toList)] "K".toList (some 7) 16 = (1, some 7) ∧
    digitsValue (radixOf 10) "12".toList = 12 ∧
    lookupInt [("K".toList, "12 ".toList)] "K".toList (some 7) 10
      = (0, some ((digitsValue (radixOf 10) "12".toList : Nat) : Int)) := by
  refine ⟨by decide, by decide, ?_, by decide, ?_⟩
  · apply C8_lookupInt_reads_in_requested_base.2.2.2.2.1
    intro c hc
    have h : leadingChar (lookup [("K".toList, "zz".toList)] "K".toList) = some 'z' := by decide
    rw [h] at hc
    rw [← Option.some.inj hc]
    decide
  · exact C8_lookupInt_reads_in_requested_base.1 [("K".toList, "12 ".toList)] "K".toList 7 10
      '1' ['2'] [' '] (by decide) (by decide) (by decide)
      (by
        intro x hx
        simp only [List.head?_cons, Option.some.injEq] at hx
        rw [← hx]
        decide)
      (fun h => absurd h (by decide)) (by decide)

/-! ## The empty store, field independence and the trigger records -/

theorem buildKvp_of_no_separator (lines : List Str) (h : ∀ l ∈ lines, '=' ∉ l) :
    buildKvp lines = [] := by
  unfold buildKvp
  induction lines with
  | nil => rfl
  | cons l ls ih =>
    rw [List.foldl_cons, processLine_of_not_mem [] l (h l (by simp))]
    exact ih (fun l2 h2 => h l2 (by simp [h2]))

/-- C17: the store built from lines without `=` (from no line at all, in
particular) is empty, and on the empty store the integer, float, timestamp and
firmware-version lookups return 1 and leave their outputs unchanged for every
key and base, and the string lookup gives the empty string. -/
theorem C17_empty_store_fails_every_lookup {F : Type} (scanf_f : Str → Option F)
    (lines : List Str) (h : ∀ l ∈ lines, '=' ∉ l) :
    buildKvp lines = [] ∧ buildKvp [] = [] ∧
    (∀ (key : Str) (val : Option Int) (base : Int),
      lookupInt (buildKvp lines) key val base = (1, val)) ∧
    (∀ (key : Str) (val : Option F), lookupFloat scanf_f (buildKvp lines) key val = (1, val)) ∧
    (∀ (key : Str) (val : Option TTimeStamp),
      lookupTimeStamp (buildKvp lines) key val = (1, val)) ∧
    (∀ (verkey datekey : Str) (val : Option FirmwareVersion),
      lookupFirmwareVersion (buildKvp lines) verkey datekey val = (1, val)) ∧
    (∀ key : Str, lookup (buildKvp lines) key = []) := by
  have hb := buildKvp_of_no_separator lines h
  rw [hb]
  refine ⟨rfl, rfl, ?_, ?_, ?_, ?_, ?_⟩
  · intro key val base; rfl
  · intro key val; rfl
  · intro key val; rfl
  · intro verkey datekey val; rfl
  · intro key; rfl

/-- Witness for C17: the two lines `junk` and `# comment` give the empty store,
on which the lookup of `STATION` fails and leaves the output 7. -/
theorem C17_empty_store_fails_every_lookup_witness :
    (∀ l ∈ ["junk".toList, "# comment".toList], '=' ∉ l) ∧
    buildKvp ["junk".toList, "# comment".toList] = [] ∧
    lookupInt (buildKvp ["junk".toList, "# comment".toList]) "STATION".toList (some 7)
      defaultBase = (1, some 7) := by
  have h : ∀ l ∈ ["junk".toList, "# comment".toList], '=' ∉ l := by decide
  have t := C17_empty_store_fails_every_lookup (fun _ : Str => (none : Option Nat)) _ h
  exact ⟨h, t.1, t.2.2.1 _ _ _⟩

/-- C19: a default-constructed `TriggerInfo` has its seven flags false, and in
its two members every number is zero and `vppmode` is false; `start_windows`
has one row per channel, each made of two zero bytes. -/
theorem C19_default_TriggerInfo_is_zero (num_radiant_channels : Nat) :
    (defaultTriggerInfo num_radiant_channels).rf_trigger = false ∧
    (defaultTriggerInfo num_radiant_channels).force_trigger = false ∧
    (defaultTriggerInfo num_radiant_channels).pps_trigger = false ∧
    (defaultTriggerInfo num_radiant_channels).ext_trigger = false ∧
    (defaultTriggerInfo num_radiant_channels).radiant_trigger = false ∧
    (defaultTriggerInfo num_radiant_channels).lt_trigger = false ∧
    (defaultTriggerInfo num_radiant_channels).surface_trigger = false ∧
    (defaultTriggerInfo num_radiant_channels).radiant_info.channel_mask = 0 ∧
    (defaultTriggerInfo num_radiant_channels).radiant_info.start_windows.length
      = num_radiant_channels ∧
    (∀ row ∈ (defaultTriggerInfo num_radiant_channels).radiant_info.start_windows,
      row = [0, 0]) ∧
    (∀ (ch j : Nat), ch < num_radiant_channels → j < 2 →
      (((defaultTriggerInfo num_radiant_channels).radiant_info.start_windows.getD ch []).get? j)
        = some 0) ∧
    (defaultTriggerInfo num_radiant_channels).radiant_info.RF_masks = [0, 0] ∧
    (defaultTriggerInfo num_radiant_channels).radiant_info.RF_ncoinc = [0, 0] ∧
    (defaultTriggerInfo num_radiant_channels).radiant_info.RF_window = [0, 0] ∧
    (defaultTriggerInfo num_radiant_channels).lt_info.window = 0 ∧
    (defaultTriggerInfo num_radiant_channels).lt_info.num_coinc = 0 ∧
    (defaultTriggerInfo num_radiant_channels).lt_info.vppmode = false := by
  refine ⟨rfl, rfl, rfl, rfl, rfl, rfl, rfl, rfl, ?_, ?_, ?_, rfl, rfl, rfl, rfl, rfl, rfl⟩
  · simp [defaultTriggerInfo, defaultRadiantTriggerInfo]
  · intro row hrow
    simp only [defaultTriggerInfo, defaultRadiantTriggerInfo] at hrow
    exact (List.eq_of_mem_replicate hrow)
  · intro ch j hch hj
    have hrow : ((defaultTriggerInfo num_radiant_channels).radiant_info.start_windows.getD
        ch []) = [0, 0] := by
      simp [defaultTriggerInfo, defaultRadiantTriggerInfo, List.getD, hch]
    rw [hrow]
    interval_cases j <;> rfl

theorem construct_eq_fillFields {F : Type} (version : Str) (scanf_f : Str → Option F)
    (lines : List Str) (init : RunInfo F) :
    RunInfo.construct version scanf_f lines init
      = RunInfo.fillFields version scanf_f (buildKvp lines) init := rfl

theorem lookupInt_congr (k1 k2 : Kvp) (key : Str) (val : Option Int) (base : Int)
    (h : lookup k1 key = lookup k2 key) :
    lookupInt k1 key val base = lookupInt k2 key val base := by
  unfold lookupInt
  rw [h]

theorem lookupFloat_congr {F : Type} (scanf_f : Str → Option F) (k1 k2 : Kvp) (key : Str)
    (val : Option F) (h : lookup k1 key = lookup k2 key) :
    lookupFloat scanf_f k1 key val = lookupFloat scanf_f k2 key val := by
  unfold lookupFloat
  rw [h]

theorem lookupTimeStamp_congr (k1 k2 : Kvp) (key : Str) (val : Option TTimeStamp)
    (h : lookup k1 key = lookup k2 key) :
    lookupTimeStamp k1 key val = lookupTimeStamp k2 key val := by
  unfold lookupTimeStamp
  rw [h]

theorem lookupFirmwareVersion_congr (k1 k2 : Kvp) (verkey datekey : Str)
    (val : Option FirmwareVersion) (hv : lookup k1 verkey = lookup k2 verkey)
    (hd : lookup k1 datekey = lookup k2 datekey) :
    lookupFirmwareVersion k1 verkey datekey val = lookupFirmwareVersion k2 verkey datekey val := by
  unfold lookupFirmwareVersion
  rw [hv, hd]

/-- C18: the constructor is the field-filling step applied to the store built
from the file, and for two stores and the same initial record that step gives
a field the same value in both as soon as the stores agree on the lookup of
the key, or of the two keys, that field is read from; nothing is assumed about
the other keys. -/
theorem C18_field_depends_only_on_its_keys {F : Type} (version : Str)
    (scanf_f : Str → Option F) (k1 k2 : Kvp) (init : RunInfo F) :
    let r1 := RunInfo.fillFields version scanf_f k1 init
    let r2 := RunInfo.fillFields version scanf_f k2 init
    let agree := fun key : String => lookup k1 key.toList = lookup k2 key.toList
    (∀ lines : List Str, RunInfo.construct version scanf_f lines init
      = RunInfo.fillFields version scanf_f (buildKvp lines) init) ∧
    r1.mattak_version = r2.mattak_version ∧
    (agree "LIB-RNO-G-GIT-HASH" → r1.librnog_version = r2.librnog_version) ∧
    (agree "RNO-G-ICE-SOFTWARE-GIT-HASH" → r1.daq_version = r2.daq_version) ∧
    (agree "STATION" → r1.station = r2.station) ∧
    (agree "RUN" → r1.run = r2.run) ∧
    (agree "RADIANT-SAMPLE-RATE" → r1.radiant_sample_rate = r2.radiant_sample_rate) ∧
    (agree "FREE-SPACE-MB-OUTPUT-PARTITION" →
      r1.MB_free_data_partition = r2.MB_free_data_partition) ∧
    (agree "FREE-SPACE-MB-RUNFILE-PARTITION" →
      r1.MB_free_main_partition = r2.MB_free_main_partition) ∧
    (agree "RUN-START-TIME" → r1.run_start_time = r2.run_start_time) ∧
    (agree "RUN-END-TIME" → r1.run_end_time = r2.run_end_time) ∧
    (agree "RADIANT-FPGA-FWVER" → agree "RADIANT-FPGA-FWDATE" →
      r1.radiant_fpga = r2.radiant_fpga) ∧
    (agree "RADIANT-BM-FWVER" → agree "RADIANT-BM-FWDATE" → r1.radiant_bm = r2.radiant_bm) ∧
    (agree "FLOWER-FWVER" → agree "FLOWER-FWDATE" → r1.flower = r2.flower) := by
  intro r1 r2 agree
  refine ⟨fun lines => rfl, rfl, ?_, ?_, ?_, ?_, ?_, ?_, ?_, ?_, ?_, ?_, ?_, ?_⟩
  · intro h; exact h
  · intro h; exact h
  · intro h
    show pointee _ (lookupInt k1 _ _ _) = pointee _ (lookupInt k2 _ _ _)
    rw [lookupInt_congr k1 k2 _ _ _ h]
  · intro h
    show pointee _ (lookupInt k1 _ _ _) = pointee _ (lookupInt k2 _ _ _)
    rw [lookupInt_congr k1 k2 _ _ _ h]
  · intro h
    show pointee _ (lookupFloat scanf_f k1 _ _) = pointee _ (lookupFloat scanf_f k2 _ _)
    rw [lookupFloat_congr scanf_f k1 k2 _ _ h]
  · intro h
    show pointee _ (lookupFloat scanf_f k1 _ _) = pointee _ (lookupFloat scanf_f k2 _ _)
    rw [lookupFloat_congr scanf_f k1 k2 _ _ h]
  · intro h
    show pointee _ (lookupFloat scanf_f k1 _ _) = pointee _ (lookupFloat scanf_f k2 _ _)
    rw [lookupFloat_congr scanf_f k1 k2 _ _ h]
  · intro h
    show pointee _ (lookupTimeStamp k1 _ _) = pointee _ (lookupTimeStamp k2 _ _)
    rw [lookupTimeStamp_congr k1 k2 _ _ h]
  · intro h
    show pointee _ (lookupTimeStamp k1 _ _) = pointee _ (lookupTimeStamp k2 _ _)
    rw [lookupTimeStamp_congr k1 k2 _ _ h]
  · intro h h2
    show pointee _ (lookupFirmwareVersion k1 _ _ _) = pointee _ (lookupFirmwareVersion k2 _ _ _)
    rw [lookupFirmwareVersion_congr k1 k2 _ _ _ h h2]
  · intro h h2
    show pointee _ (lookupFirmwareVersion k1 _ _ _) = pointee _ (lookupFirmwareVersion k2 _ _ _)
    rw [lookupFirmwareVersion_congr k1 k2 _ _ _ h h2]
  · intro h h2
    show pointee _ (lookupFirmwareVersion k1 _ _ _) = pointee _ (lookupFirmwareVersion k2 _ _ _)
    rw [lookupFirmwareVersion_congr k1 k2 _ _ _ h h2]

/-- Witness for C18: two stores that agree on `STATION` and differ on `RUN`
give the same `station`, while their `run` fields differ. -/
theorem C18_field_depends_only_on_its_keys_witness :
    lookup [("STATION".toList, "21".toList), ("RUN".toList, "1".toList)] "STATION".toList
      = lookup [("STATION".toList, "21".toList), ("RUN".toList, "zz".toList)] "STATION".toList ∧
    (RunInfo.fillFields [] (fun _ => (none : Option Nat))
        [("STATION".toList, "21".toList), ("RUN".toList, "1".toList)]
        ⟨[], [], [], 0, 0, 0, 0, 0, ⟨0, 0⟩, ⟨0, 0⟩, ⟨0, 0, 0, 0, 0, 0⟩, ⟨0, 0, 0, 0, 0, 0⟩,
          ⟨0, 0, 0, 0, 0, 0⟩, []⟩).station
      = (RunInfo.fillFields [] (fun _ => (none : Option Nat))
        [("STATION".toList, "21".toList), ("RUN".toList, "zz".toList)]
        ⟨[], [], [], 0, 0, 0, 0, 0, ⟨0, 0⟩, ⟨0, 0⟩, ⟨0, 0, 0, 0, 0, 0⟩, ⟨0, 0, 0, 0, 0, 0⟩,
          ⟨0, 0, 0, 0, 0, 0⟩, []⟩).station := by
  have h := C18_field_depends_only_on_its_keys [] (fun _ => (none : Option Nat))
    [("STATION".toList, "21".toList), ("RUN".toList, "1".toList)]
    [("STATION".toList, "21".toList), ("RUN".toList, "zz".toList)]
    ⟨[], [], [], 0, 0, 0, 0, 0, ⟨0, 0⟩, ⟨0, 0⟩, ⟨0, 0, 0, 0, 0, 0⟩, ⟨0, 0, 0, 0, 0, 0⟩,
      ⟨0, 0, 0, 0, 0, 0⟩, []⟩
  exact ⟨by decide, h.2.2.2.2.1 (by decide)⟩

/-! ## The function `trim` -/

theorem contains_blank (c : Char) : ([' ', '\t'] : Str).contains c = !notBlank c := by
  cases h1 : c == ' ' <;> cases h2 : c == '\t' <;>
    simp [notBlank, List.contains, List.elem, h1, h2]

theorem find_last_not_of_cons (ws : Str) (a : Char) (s : Str) :
    find_last_not_of ws (a :: s) =
      match find_last_not_of ws s with
      | some i => some (i + 1)
      | none => if ws.contains a then none else some 0 := rfl

theorem find_last_not_of_all (ws s : Str) (h : ∀ c ∈ s, ws.contains c = true) :
    find_last_not_of ws s = none := by
  induction s with
  | nil => rfl
  | cons a s ih =>
    rw [find_last_not_of_cons, ih (fun c hc => h c (List.mem_cons_of_mem a hc))]
    show (if ws.contains a = true then none else some 0) = none
    rw [if_pos (h a (List.mem_cons_self a s))]

theorem find_last_not_of_split (ws : Str) (c : Char) (post : Str)
    (hc : ws.contains c = false) (hpost : ∀ x ∈ post, ws.contains x = true) :
    ∀ pre : Str, find_last_not_of ws (pre ++ c :: post) = some pre.length := by
  intro pre
  induction pre with
  | nil =>
    rw [List.nil_append, find_last_not_of_cons, find_last_not_of_all ws post hpost]
    show (if ws.contains c = true then none else some 0) = some 0
    rw [hc]
    rfl
  | cons a pre ih =>
    rw [List.cons_append, find_last_not_of_cons, ih]
    rfl

theorem blank_split (s : Str) :
    (∀ c ∈ s, notBlank c = false) ∨
      ∃ pre c post, s = pre ++ c :: post ∧ notBlank c = true ∧ ∀ x ∈ post, notBlank x = false := by
  induction s with
  | nil => left; intro c hc; exact absurd hc (List.not_mem_nil c)
  | cons a s ih =>
    rcases ih with h | ⟨pre, c, post, h1, h2, h3⟩
    · cases ha : notBlank a with
      | true => exact Or.inr ⟨[], a, s, rfl, ha, h⟩
      | false =>
        left
        intro c hc
        rcases List.mem_cons.mp hc with e | e
        · rw [e]; exact ha
        · exact h c e
    · exact Or.inr ⟨a :: pre, c, post, by rw [h1]; rfl, h2, h3⟩

theorem trim_of_all_blank (s : Str) (h : ∀ c ∈ s, notBlank c = false) : trim s = [] := by
  have hn : find_last_not_of [' ', '\t'] s = none := by
    apply find_last_not_of_all
    intro c hc
    rw [contains_blank, h c hc]; rfl
  have h0 : (npos + 1) % 2 ^ 64 = 0 := by decide
  unfold trim
  simp only [hn, toSizeT, erase, eraseFront, h0, List.take_zero, List.drop_nil]

theorem trim_of_last_not_blank (pre post : Str) (c : Char)
    (hlen : (pre ++ c :: post).length < 2 ^ 64) (hc : notBlank c = true)
    (hpost : ∀ x ∈ post, notBlank x = false) : trim (pre ++ c :: post) = [c] := by
  have hcc : ([' ', '\t'] : Str).contains c = false := by rw [contains_blank, hc]; rfl
  have hpostb : ∀ x ∈ post, ([' ', '\t'] : Str).contains x = true := by
    intro x hx
    rw [contains_blank, hpost x hx]; rfl
  have hsome := find_last_not_of_split _ c post hcc hpostb pre
  have hsome2 := find_last_not_of_split _ c [] hcc (fun x hx => absurd hx (List.not_mem_nil x)) pre
  have hmod : (pre.length + 1) % 2 ^ 64 = pre.length + 1 := by
    apply Nat.mod_eq_of_lt
    simp only [List.length_append, List.length_cons] at hlen
    omega
  have htake : (pre ++ c :: post).take (pre.length + 1) = pre ++ [c] := by
    rw [List.take_append_eq_append_take]
    simp
  unfold trim
  simp only [hsome, toSizeT, erase, eraseFront, hmod, htake, hsome2]
  simp

theorem lastNotBlank_of_all_blank (s : Str) (h : ∀ c ∈ s, notBlank c = false) :
    lastNotBlank s = none := by
  have : s.filter notBlank = [] := by
    rw [List.filter_eq_nil_iff]
    intro c hc
    rw [h c hc]
    decide
  unfold lastNotBlank
  rw [this]
  rfl

theorem lastNotBlank_of_split (pre post : Str) (c : Char) (hc : notBlank c = true)
    (hpost : ∀ x ∈ post, notBlank x = false) : lastNotBlank (pre ++ c :: post) = some c := by
  have hp : post.filter notBlank = [] := by
    rw [List.filter_eq_nil_iff]
    intro x hx
    rw [hpost x hx]
    decide
  unfold lastNotBlank
  rw [List.filter_append, List.filter_cons_of_pos hc, hp, List.getLast?_append]
  rfl

theorem trim_eq_lastNotBlank (s : Str) (hlen : s.length < 2 ^ 64) :
    trim s = (lastNotBlank s).toList := by
  rcases blank_split s with h | ⟨pre, c, post, h1, h2, h3⟩
  · rw [trim_of_all_blank s h, lastNotBlank_of_all_blank s h]
    rfl
  · subst h1
    rw [trim_of_last_not_blank pre post c hlen h2 h3, lastNotBlank_of_split pre post c h2 h3]
    rfl

theorem trim_length_le_one (s : Str) (hlen : s.length < 2 ^ 64) : (trim s).length ≤ 1 := by
  rw [trim_eq_lastNotBlank s hlen]
  cases lastNotBlank s <;> simp [Option.toList]

theorem foldl_processLine_keys_short (lines : List Str)
    (hlen : ∀ l ∈ lines, l.length < 2 ^ 64) :
    ∀ m : Kvp, (∀ k ∈ Kvp.keys m, k.length ≤ 1) →
      ∀ k ∈ Kvp.keys (lines.foldl processLine m), k.length ≤ 1 := by
  induction lines with
  | nil => intro m hm; exact hm
  | cons l ls ih =>
    intro m hm
    rw [List.foldl_cons]
    apply ih (fun l2 h2 => hlen l2 (List.mem_cons_of_mem l h2))
    intro k hk
    unfold processLine at hk
    cases hf : find '=' l with
    | none =>
      rw [hf] at hk
      exact hm k hk
    | some pos =>
      rw [hf] at hk
      rcases (Kvp.mem_keys_assign _ _ _ _).mp hk with e | e
      · rw [e]
        apply trim_length_le_one
        have := hlen l (List.mem_cons_self l ls)
        have h2 : (l.take pos).length ≤ l.length := by
          rw [List.length_take]
          exact Nat.min_le_right _ _
        omega
      · exact hm k e

/-- C20: for a string `s` (of a length that fits `size_t`), `trim s` is the
empty string when `s` has no character other than spaces and tabs, and is
otherwise the one-character string made of the last character of `s` that is
neither a space nor a tab; so every key of a built store has at most one
character. -/
theorem C20_trim_keeps_only_last_not_blank (s : Str) (hlen : s.length < 2 ^ 64) :
    trim s = (lastNotBlank s).toList ∧
    ((∀ c ∈ s, c = ' ' ∨ c = '\t') → trim s = []) ∧
    (∀ (pre post : Str) (c : Char), s = pre ++ c :: post → c ≠ ' ' → c ≠ '\t' →
      (∀ x ∈ post, x = ' ' ∨ x = '\t') → trim s = [c]) ∧
    (∀ lines : List Str, (∀ l ∈ lines, l.length < 2 ^ 64) →
      ∀ k ∈ Kvp.keys (buildKvp lines), k.length ≤ 1) := by
  have hb : ∀ x : Char, (x = ' ' ∨ x = '\t') → notBlank x = false := by
    intro x hx
    rcases hx with e | e <;> rw [e] <;> rfl
  refine ⟨trim_eq_lastNotBlank s hlen, ?_, ?_, ?_⟩
  · intro h
    exact trim_of_all_blank s (fun c hc => hb c (h c hc))
  · intro pre post c hs h1 h2 hpost
    subst hs
    apply trim_of_last_not_blank pre post c hlen
    · simp [notBlank, h1, h2]
    · exact fun x hx => hb x (hpost x hx)
  · intro lines hl
    exact foldl_processLine_keys_short lines hl [] (fun k hk => absurd hk (List.not_mem_nil k))

/-- Witness for C20: `trim` turns `  STATION ` into `N`. -/
theorem C20_trim_keeps_only_last_not_blank_witness :
    "  STATION ".toList.length < 2 ^ 64 ∧ trim "  STATION ".toList = "N".toList := by
  have h : "  STATION ".toList.length < 2 ^ 64 := by decide
  have t := (C20_trim_keeps_only_last_not_blank "  STATION ".toList h).1
  exact ⟨h, t.trans (by decide)⟩

/-! ## The firmware-version lookup -/

theorem scanInt_nat_text (n : Nat) (hn : n < 2 ^ 31) (rest : Str)
    (hr : ∀ x, rest.head? = some x → isDigitOf 10 x = false) :
    scanInt .d none (decimalText n ++ rest) = .ok (n : Int) rest :=
  scanInt_decimalText .d (Or.inl rfl) (n : Int) (by omega) (by exact_mod_cast hn) rest hr
    (by intro h; rcases h with h | h; omega; exact absurd h (by decide))

theorem sscanf_three_numbers (sep1 sep2 : Char) (a b c : Nat) (ha : a < 2 ^ 31)
    (hb : b < 2 ^ 31) (hc : c < 2 ^ 31) (h1 : isDigitOf 10 sep1 = false)
    (h2 : isDigitOf 10 sep2 = false) :
    sscanf (decimalText a ++ sep1 :: (decimalText b ++ sep2 :: decimalText c))
      [.conv none .d, .lit sep1, .conv none .d, .lit sep2, .conv none .d]
      = ⟨3, [(a : Int), (b : Int), (c : Int)]⟩ := by
  have e1 := scanInt_nat_text a ha (sep1 :: (decimalText b ++ sep2 :: decimalText c))
    (by intro x hx; simp only [List.head?_cons, Option.some.injEq] at hx; rw [← hx]; exact h1)
  have e2 := scanInt_nat_text b hb (sep2 :: decimalText c)
    (by intro x hx; simp only [List.head?_cons, Option.some.injEq] at hx; rw [← hx]; exact h2)
  have e3 := scanInt_nat_text c hc [] (by simp)
  rw [List.append_nil] at e3
  simp [sscanf, sscanfLoop, e1, e2, e3]

/-- C12: when the version key maps to three numbers (below 2^31) written in
decimal and separated by dots, and the date key to a non-empty string, the
lookup returns 0, sets `major`, `minor` and `rev` to the numbers and leaves
`year`, `month` and `day` as they were. -/
theorem C12_version_text_sets_major_minor_rev (kvp : Kvp) (verkey datekey : Str)
    (a b c : Nat) (v : FirmwareVersion) (ha : a < 2 ^ 31) (hb : b < 2 ^ 31) (hc : c < 2 ^ 31)
    (hver : lookup kvp verkey = decimalText a ++ '.' :: (decimalText b ++ '.' :: decimalText c))
    (hdate : lookup kvp datekey ≠ []) :
    lookupFirmwareVersion kvp verkey datekey (some v)
      = (0, some { major := a, minor := b, rev := c,
                   year := v.year, month := v.month, day := v.day }) := by
  have h3 := sscanf_three_numbers '.' '.' a b c ha hb hc (by decide) (by decide)
  have hne : decimalText a ++ '.' :: (decimalText b ++ '.' :: decimalText c) ≠ [] := by simp
  unfold lookupFirmwareVersion
  simp only [hver, hdate, hne, or_self, if_false, fmt_version, h3]
  simp [storeVersion]

/-- Witness for C12: the version `3.1.4` with the date `x` gives major 3,
minor 1, rev 4 and leaves year, month and day at 7, 8 and 9. -/
theorem C12_version_text_sets_major_minor_rev_witness :
    lookup [("V".toList, "3.1.4".toList), ("D".toList, "x".toList)] "V".toList
      = decimalText (3 : Nat) ++ '.' :: (decimalText (1 : Nat) ++ '.' :: decimalText (4 : Nat)) ∧
    lookupFirmwareVersion [("V".toList, "3.1.4".toList), ("D".toList, "x".toList)]
      "V".toList "D".toList (some ⟨0, 0, 0, 7, 8, 9⟩) = (0, some ⟨3, 1, 4, 7, 8, 9⟩) :=
  ⟨by decide, C12_version_text_sets_major_minor_rev _ _ _ 3 1 4 ⟨0, 0, 0, 7, 8, 9⟩
    (by norm_num) (by norm_num) (by norm_num) (by decide) (by decide)⟩

theorem lookupFirmwareVersion_of_texts (kvp : Kvp) (verkey datekey : Str) (ver : Str)
    (v : FirmwareVersion) (hver : lookup kvp verkey = ver) (hne : ver ≠ [])
    (hdate : lookup kvp datekey ≠ []) :
    lookupFirmwareVersion kvp verkey datekey (some v) =
      (if 3 ≠ (sscanf ver fmt_version).count then
        (if 3 ≠ (sscanf ver fmt_date).count then 1 else 0,
          some (storeDate (storeVersion v (sscanf ver fmt_version).assigned)
            (sscanf ver fmt_date).assigned))
      else (0, some (storeVersion v (sscanf ver fmt_version).assigned))) := by
  unfold lookupFirmwareVersion
  simp only [hver, hne, hdate, or_self, if_false]

/-- C13, as stated, fails: with the version `2024-05-01` and the date `x` the
lookup returns 1, not 0. -/
theorem C13_hyphen_date_is_rejected :
    ¬ (∀ (kvp : Kvp) (verkey datekey : Str) (v : FirmwareVersion),
      lookup kvp verkey = "2024-05-01".toList → lookup kvp datekey ≠ [] →
      (lookupFirmwareVersion kvp verkey datekey (some v)).1 = 0 ∧
      ((lookupFirmwareVersion kvp verkey datekey (some v)).2.map (fun w => (w.year, w.month, w.day)))
        = some (2024, 5, 1)) := by
  intro h
  have h1 := (h [("V".toList, "2024-05-01".toList), ("D".toList, "x".toList)] "V".toList
    "D".toList ⟨0, 0, 0, 0, 0, 0⟩ (by decide) (by decide)).1
  revert h1
  decide

/-- C13, amended: with a non-empty date, the version `2024-05-01` makes the
lookup return 1, because the date-coded pattern has a `.` before the day; the
version `2024-05.01` makes it return 0 with year 2024, month 5 and day 1. -/
theorem C13_date_pattern_needs_dot_before_day (kvp : Kvp) (verkey datekey : Str)
    (v : FirmwareVersion) (hdate : lookup kvp datekey ≠ []) :
    (lookup kvp verkey = "2024-05-01".toList →
      (lookupFirmwareVersion kvp verkey datekey (some v)).1 = 1) ∧
    (lookup kvp verkey = "2024-05.01".toList →
      (lookupFirmwareVersion kvp verkey datekey (some v)).1 = 0 ∧
      ((lookupFirmwareVersion kvp verkey datekey (some v)).2.map
        (fun w => (w.year, w.month, w.day))) = some (2024, 5, 1)) := by
  constructor
  · intro hver
    rw [lookupFirmwareVersion_of_texts kvp verkey datekey _ v hver (by decide) hdate]
    have e1 : sscanf "2024-05-01".toList fmt_version = ⟨1, [2024]⟩ := by decide
    have e2 : sscanf "2024-05-01".toList fmt_date = ⟨2, [2024, 5]⟩ := by decide
    rw [e1, e2]
    rfl
  · intro hver
    rw [lookupFirmwareVersion_of_texts kvp verkey datekey _ v hver (by decide) hdate]
    have e1 : sscanf "2024-05.01".toList fmt_version = ⟨1, [2024]⟩ := by decide
    have e2 : sscanf "2024-05.01".toList fmt_date = ⟨3, [2024, 5, 1]⟩ := by decide
    rw [e1, e2]
    exact ⟨rfl, rfl⟩

/-- Witness for the amended C13: in a store with the version `2024-05-01` and
the date `x` the lookup returns 1. -/
theorem C13_date_pattern_needs_dot_before_day_witness :
    lookup [("V".toList, "2024-05-01".toList), ("D".toList, "x".toList)] "D".toList ≠ [] ∧
    (lookupFirmwareVersion [("V".toList, "2024-05-01".toList), ("D".toList, "x".toList)]
      "V".toList "D".toList (some ⟨0, 0, 0, 0, 0, 0⟩)).1 = 1 :=
  ⟨by decide, (C13_date_pattern_needs_dot_before_day _ _ _ _ (by decide)).1 (by decide)⟩

/-- C14 (output written by the failed first attempt): with the version
`2024-05.01` and the date `x` the lookup returns 0 and sets year, month and day
to 2024, 5 and 1, but `major` does not keep its prior value: the first `sscanf`
has stored 2024 in it before failing at the `-`. -/
theorem C14_date_text_overwrites_major (v : FirmwareVersion) :
    lookupFirmwareVersion [("V".toList, "2024-05.01".toList), ("D".toList, "x".toList)]
      "V".toList "D".toList (some v)
      = (0, some { major := 2024, minor := v.minor, rev := v.rev,
                   year := 2024, month := 5, day := 1 }) := by
  rw [lookupFirmwareVersion_of_texts _ _ _ "2024-05.01".toList v (by decide) (by decide)
    (by decide)]
  have e1 : sscanf "2024-05.01".toList fmt_version = ⟨1, [2024]⟩ := by decide
  have e2 : sscanf "2024-05.01".toList fmt_date = ⟨3, [2024, 5, 1]⟩ := by decide
  rw [e1, e2]
  rfl

/-- C16 (output written by failed attempts): with the date `x`, the version
`3.1` makes the lookup return 1 after it has stored 3 in `major`, 1 in `minor`
and 3 in `year`, and the version `2024-05-01` makes it return 1 after it has
stored 2024 in `major` and `year` and 5 in `month`. -/
theorem C16_failed_lookup_changes_output (v : FirmwareVersion) :
    lookupFirmwareVersion [("V".toList, "3.1".toList), ("D".toList, "x".toList)]
      "V".toList "D".toList (some v)
      = (1, some { major := 3, minor := 1, rev := v.rev,
                   year := 3, month := v.month, day := v.day }) ∧
    lookupFirmwareVersion [("V".toList, "2024-05-01".toList), ("D".toList, "x".toList)]
      "V".toList "D".toList (some v)
      = (1, some { major := 2024, minor := v.minor, rev := v.rev,
                   year := 2024, month := 5, day := v.day }) := by
  constructor
  · rw [lookupFirmwareVersion_of_texts _ _ _ "3.1".toList v (by decide) (by decide) (by decide)]
    have e1 : sscanf "3.1".toList fmt_version = ⟨2, [3, 1]⟩ := by decide
    have e2 : sscanf "3.1".toList fmt_date = ⟨1, [3]⟩ := by decide
    rw [e1, e2]
    rfl
  · rw [lookupFirmwareVersion_of_texts _ _ _ "2024-05-01".toList v (by decide) (by decide)
      (by decide)]
    have e1 : sscanf "2024-05-01".toList fmt_version = ⟨1, [2024]⟩ := by decide
    have e2 : sscanf "2024-05-01".toList fmt_date = ⟨2, [2024, 5]⟩ := by decide
    rw [e1, e2]
    rfl

theorem readDigits_unlimited (b : Nat) (s : Str) :
    readDigits b none s = (s.takeWhile (isDigitOf b), s.dropWhile (isDigitOf b)) := by
  induction s with
  | nil => rfl
  | cons c s ih =>
    cases hc : isDigitOf b c with
    | true => simp [readDigits, widthLeft, decWidth, hc, ih]
    | false => simp [readDigits, widthLeft, hc]

theorem scanInt_d_after_sign (neg : Bool) (s1 : Str) :
    (let zero := widthLeft none && s1.head? == some '0'
     let w2 := if zero then decWidth none else none
     let s2 := if zero then s1.tail else s1
     let isx := zero && widthLeft w2 && (s2.head? == some 'x' || s2.head? == some 'X')
     let base :=
       if isx then (if Conv.d.base = 0 then 16 else Conv.d.base)
       else if zero && Conv.d.base == 0 then 8
       else if Conv.d.base = 0 then 10 else Conv.d.base
     let skipx := isx && base == 16
     let w3 := if skipx then decWidth w2 else w2
     let s3 := if skipx then s2.tail else s2
     let r := readDigits base w3 s3
     let buf := (if zero then ['0'] else []) ++ r.1
     if buf = [] then Item.matchFailure
     else Item.ok (storeInt Conv.d neg (digitsValue base buf)) r.2)
    = if s1.takeWhile (isDigitOf 10) = [] then Item.matchFailure
      else Item.ok (storeInt Conv.d neg (digitsValue 10 (s1.takeWhile (isDigitOf 10))))
        (s1.dropWhile (isDigitOf 10)) := by
  have h0 : isDigitOf 10 '0' = true := by decide
  cases s1 with
  | nil => simp [widthLeft, readDigits]
  | cons x s =>
    by_cases hx : x = '0'
    · subst hx
      simp [widthLeft, decWidth, Conv.base, readDigits_unlimited, h0]
    · simp [widthLeft, Conv.base, readDigits_unlimited, hx]

theorem scanInt_d_unlimited (v : Str) :
    scanInt .d none v =
      match v.dropWhile isspace with
      | [] => .inputFailure
      | c :: s =>
        if (afterSign (c :: s)).takeWhile (isDigitOf 10) = [] then .matchFailure
        else .ok (storeInt .d (c == '-')
          (digitsValue 10 ((afterSign (c :: s)).takeWhile (isDigitOf 10))))
          ((afterSign (c :: s)).dropWhile (isDigitOf 10)) := by
  unfold scanInt
  cases hdw : v.dropWhile isspace with
  | nil => rfl
  | cons c s =>
    by_cases hsgn : c = '-' ∨ c = '+'
    · have hs : (c == '-' || c == '+') = true := by
        rcases hsgn with e | e <;> simp [e]
      have ha : afterSign (c :: s) = s := by simp [afterSign, hsgn]
      simp only [hs, if_true, decWidth, ha]
      exact scanInt_d_after_sign _ s
    · have hs : (c == '-' || c == '+') = false := by
        simp only [not_or] at hsgn
        simp [hsgn.1, hsgn.2]
      have ha : afterSign (c :: s) = c :: s := by simp [afterSign, hsgn]
      simp only [hs, Bool.false_eq_true, if_false, ha]
      exact scanInt_d_after_sign _ (c :: s)

theorem scanInt_d_cases (v : Str) :
    (skipInt v = none ∧
      (scanInt .d none v = .inputFailure ∨ scanInt .d none v = .matchFailure)) ∨
    (∃ x rest, skipInt v = some rest ∧ scanInt .d none v = .ok x rest) := by
  rw [scanInt_d_unlimited]
  unfold skipInt
  cases hdw : v.dropWhile isspace with
  | nil => left; exact ⟨rfl, Or.inl rfl⟩
  | cons c s =>
    by_cases ht : (afterSign (c :: s)).takeWhile (isDigitOf 10) = []
    · left
      simp [ht]
    · right
      simp [ht]

theorem sscanf_three_count (sep1 sep2 : Char) (v : Str) :
    (sscanf v [.conv none .d, .lit sep1, .conv none .d, .lit sep2, .conv none .d]).count = 3
      ↔ startsWithPattern sep1 sep2 v = true := by
  unfold sscanf startsWithPattern
  rcases scanInt_d_cases v with ⟨h1, h2 | h2⟩ | ⟨x1, r1, h1, h2⟩
  · simp [sscanfLoop, h1, h2, EOF]
  · simp [sscanfLoop, h1, h2]
  · cases r1 with
    | nil => simp [sscanfLoop, h1, h2]
    | cons c1 t1 =>
      by_cases hc1 : c1 = sep1
      · subst hc1
        rcases scanInt_d_cases t1 with ⟨h3, h4 | h4⟩ | ⟨x2, r2, h3, h4⟩
        · simp [sscanfLoop, h1, h2, h3, h4]
        · simp [sscanfLoop, h1, h2, h3, h4]
        · cases r2 with
          | nil => simp [sscanfLoop, h1, h2, h3, h4]
          | cons c2 t2 =>
            by_cases hc2 : c2 = sep2
            · subst hc2
              rcases scanInt_d_cases t2 with ⟨h5, h6 | h6⟩ | ⟨x3, r3, h5, h6⟩
              · simp [sscanfLoop, h1, h2, h3, h4, h5, h6]
              · simp [sscanfLoop, h1, h2, h3, h4, h5, h6]
              · simp [sscanfLoop, h1, h2, h3, h4, h5, h6]
            · simp [sscanfLoop, h1, h2, h3, h4, hc2]
      · simp [sscanfLoop, h1, h2, hc1]

theorem lookup_eq_nil_iff (kvp : Kvp) (key : Str) :
    lookup kvp key = [] ↔ Kvp.find key kvp = none ∨ Kvp.find key kvp = some [] := by
  unfold lookup
  cases Kvp.find key kvp with
  | none => simp [empty]
  | some v => simp

theorem sscanf_three_numbers_then_text (sep1 sep2 : Char) (a b c : Nat) (ha : a < 2 ^ 31)
    (hb : b < 2 ^ 31) (hc : c < 2 ^ 31) (h1 : isDigitOf 10 sep1 = false)
    (h2 : isDigitOf 10 sep2 = false) (rest : Str)
    (hr : ∀ x, rest.head? = some x → isDigitOf 10 x = false) :
    sscanf (decimalText a ++ sep1 :: (decimalText b ++ sep2 :: (decimalText c ++ rest)))
      [.conv none .d, .lit sep1, .conv none .d, .lit sep2, .conv none .d]
      = ⟨3, [(a : Int), (b : Int), (c : Int)]⟩ := by
  have e1 := scanInt_nat_text a ha (sep1 :: (decimalText b ++ sep2 :: (decimalText c ++ rest)))
    (by intro x hx; simp only [List.head?_cons, Option.some.injEq] at hx; rw [← hx]; exact h1)
  have e2 := scanInt_nat_text b hb (sep2 :: (decimalText c ++ rest))
    (by intro x hx; simp only [List.head?_cons, Option.some.injEq] at hx; rw [← hx]; exact h2)
  have e3 := scanInt_nat_text c hc rest hr
  simp [sscanf, sscanfLoop, e1, e2, e3]

theorem lookupFirmwareVersion_status (kvp : Kvp) (verkey datekey : Str)
    (v : FirmwareVersion) (h1 : lookup kvp verkey ≠ []) (h2 : lookup kvp datekey ≠ []) :
    ((startsWithPattern '.' '.' (lookup kvp verkey) = false ∧
        startsWithPattern '-' '.' (lookup kvp verkey) = false) ∧
      (lookupFirmwareVersion kvp verkey datekey (some v)).1 = 1) ∨
    ((startsWithPattern '.' '.' (lookup kvp verkey) = true ∨
        startsWithPattern '-' '.' (lookup kvp verkey) = true) ∧
      (lookupFirmwareVersion kvp verkey datekey (some v)).1 = 0) := by
  have hv := sscanf_three_count '.' '.' (lookup kvp verkey)
  have hd := sscanf_three_count '-' '.' (lookup kvp verkey)
  rw [lookupFirmwareVersion_of_texts kvp verkey datekey _ v rfl h1 h2]
  cases m1 : startsWithPattern '.' '.' (lookup kvp verkey) with
  | true =>
    right
    have c1 : ¬ (3 ≠ (sscanf (lookup kvp verkey) fmt_version).count) := by
      rw [show (sscanf (lookup kvp verkey) fmt_version).count = 3 from hv.mpr m1]
      simp
    rw [if_neg c1]
    exact ⟨Or.inl rfl, rfl⟩
  | false =>
    have c1 : 3 ≠ (sscanf (lookup kvp verkey) fmt_version).count := by
      intro e
      rw [hv.mp e.symm] at m1
      exact absurd m1 (by decide)
    rw [if_pos c1]
    cases m2 : startsWithPattern '-' '.' (lookup kvp verkey) with
    | true =>
      right
      have c2 : ¬ (3 ≠ (sscanf (lookup kvp verkey) fmt_date).count) := by
        rw [show (sscanf (lookup kvp verkey) fmt_date).count = 3 from hd.mpr m2]
        simp
      rw [if_neg c2]
      exact ⟨Or.inr rfl, rfl⟩
    | false =>
      left
      have c2 : 3 ≠ (sscanf (lookup kvp verkey) fmt_date).count := by
        intro e
        rw [hd.mp e.symm] at m2
        exact absurd m2 (by decide)
      rw [if_pos c2]
      exact ⟨⟨rfl, rfl⟩, rfl⟩

/-- C15, as stated, fails: the version `3.1.4.5` is neither of the form
`major.minor.revision` nor of the form `year-month.day`, both keys map to
non-empty strings, and the lookup returns 0, not 1. -/
theorem C15_text_after_third_number_is_accepted :
    ¬ (∀ (kvp : Kvp) (verkey datekey : Str) (v : FirmwareVersion),
      (lookupFirmwareVersion kvp verkey datekey (some v)).1 = 1 ↔
        ((Kvp.find verkey kvp = none ∨ Kvp.find verkey kvp = some []) ∨
         (Kvp.find datekey kvp = none ∨ Kvp.find datekey kvp = some []) ∨
         (isPatternText '.' '.' (lookup kvp verkey) = false ∧
          isPatternText '-' '.' (lookup kvp verkey) = false))) := by
  intro h
  have h1 := (h [("V".toList, "3.1.4.5".toList), ("D".toList, "x".toList)] "V".toList
    "D".toList ⟨0, 0, 0, 0, 0, 0⟩).mpr (by decide)
  revert h1
  decide

/-- C15, amended: with a non-null output the firmware-version lookup returns 1
exactly when the version key is absent or maps to the empty string, or the
date key is absent or maps to the empty string, or the version text starts
neither with three integers separated by two dots nor with three integers
separated by a hyphen and a dot; otherwise it returns 0. An empty version
gives 1 whatever the date is. Three numbers in either form followed by other
text give 0. -/
theorem C15_failure_exactly_when_nothing_matches (kvp : Kvp) (verkey datekey : Str)
    (v : FirmwareVersion) :
    ((lookupFirmwareVersion kvp verkey datekey (some v)).1 = 1 ↔
      ((Kvp.find verkey kvp = none ∨ Kvp.find verkey kvp = some []) ∨
       (Kvp.find datekey kvp = none ∨ Kvp.find datekey kvp = some []) ∨
       (startsWithPattern '.' '.' (lookup kvp verkey) = false ∧
        startsWithPattern '-' '.' (lookup kvp verkey) = false))) ∧
    ((lookupFirmwareVersion kvp verkey datekey (some v)).1 = 1 ∨
      (lookupFirmwareVersion kvp verkey datekey (some v)).1 = 0) ∧
    (lookup kvp verkey = [] → (lookupFirmwareVersion kvp verkey datekey (some v)).1 = 1) ∧
    (∀ (a b c : Nat) (rest : Str), a < 2 ^ 31 → b < 2 ^ 31 → c < 2 ^ 31 →
      (∀ x, rest.head? = some x → isDigitOf 10 x = false) → lookup kvp datekey ≠ [] →
      (lookup kvp verkey
          = decimalText a ++ '.' :: (decimalText b ++ '.' :: (decimalText c ++ rest)) ∨
        lookup kvp verkey
          = decimalText a ++ '-' :: (decimalText b ++ '.' :: (decimalText c ++ rest))) →
      (lookupFirmwareVersion kvp verkey datekey (some v)).1 = 0) ∧
    (lookupFirmwareVersion [("V".toList, "3.1.4.5".toList), ("D".toList, "x".toList)]
      "V".toList "D".toList (some ⟨0, 0, 0, 0, 0, 0⟩)).1 = 0 ∧
    (lookupFirmwareVersion [("V".toList, "3.1.4xyz".toList), ("D".toList, "x".toList)]
      "V".toList "D".toList (some ⟨0, 0, 0, 0, 0, 0⟩)).1 = 0 ∧
    (lookupFirmwareVersion [("V".toList, "3.1".toList), ("D".toList, "x".toList)]
      "V".toList "D".toList (some ⟨0, 0, 0, 0, 0, 0⟩)).1 = 1 := by
  have hempty : lookup kvp verkey = [] →
      (lookupFirmwareVersion kvp verkey datekey (some v)).1 = 1 := by
    intro h1
    simp [lookupFirmwareVersion, h1]
  have hiff : (lookupFirmwareVersion kvp verkey datekey (some v)).1 = 1 ↔
      ((Kvp.find verkey kvp = none ∨ Kvp.find verkey kvp = some []) ∨
       (Kvp.find datekey kvp = none ∨ Kvp.find datekey kvp = some []) ∨
       (startsWithPattern '.' '.' (lookup kvp verkey) = false ∧
        startsWithPattern '-' '.' (lookup kvp verkey) = false)) := by
    rw [← lookup_eq_nil_iff, ← lookup_eq_nil_iff]
    by_cases h1 : lookup kvp verkey = []
    · simp [hempty h1, h1]
    · by_cases h2 : lookup kvp datekey = []
      · have : (lookupFirmwareVersion kvp verkey datekey (some v)).1 = 1 := by
          simp [lookupFirmwareVersion, h2]
        simp [this, h2]
      · rcases lookupFirmwareVersion_status kvp verkey datekey v h1 h2 with ⟨m, e⟩ | ⟨m, e⟩
        · simp [e, m.1, m.2]
        · rw [e]
          rcases m with m | m <;> simp [h1, h2, m]
  have h01 : (lookupFirmwareVersion kvp verkey datekey (some v)).1 = 1 ∨
      (lookupFirmwareVersion kvp verkey datekey (some v)).1 = 0 := by
    by_cases h1 : lookup kvp verkey = []
    · exact Or.inl (hempty h1)
    · by_cases h2 : lookup kvp datekey = []
      · left
        simp [lookupFirmwareVersion, h2]
      · rcases lookupFirmwareVersion_status kvp verkey datekey v h1 h2 with ⟨_, e⟩ | ⟨_, e⟩
        · exact Or.inl e
        · exact Or.inr e
  refine ⟨hiff, h01, hempty, ?_, by decide, by decide, by decide⟩
  intro a b c rest ha hb hc hr hdate hver
  have hne : lookup kvp verkey ≠ [] := by
    rcases hver with e | e <;> rw [e] <;> simp
  rcases lookupFirmwareVersion_status kvp verkey datekey v hne hdate with ⟨m, _⟩ | ⟨_, e⟩
  · exfalso
    rcases hver with e | e
    · have h3 := sscanf_three_numbers_then_text '.' '.' a b c ha hb hc (by decide) (by decide)
        rest hr
      have hcount := (sscanf_three_count '.' '.' (lookup kvp verkey)).mp (by rw [e, h3])
      rw [m.1] at hcount
      exact absurd hcount (by decide)
    · have h3 := sscanf_three_numbers_then_text '-' '.' a b c ha hb hc (by decide) (by decide)
        rest hr
      have hcount := (sscanf_three_count '-' '.' (lookup kvp verkey)).mp (by rw [e, h3])
      rw [m.2] at hcount
      exact absurd hcount (by decide)
  · exact e

/-- Witness for the amended C15: the version `3.1` starts with neither
pattern, so with the date `x` the lookup returns 1; the version `3.1.4xyz`,
three numbers followed by other text, gives 0. -/
theorem C15_failure_exactly_when_nothing_matches_witness :
    startsWithPattern '.' '.'
      (lookup [("V".toList, "3.1".toList), ("D".toList, "x".toList)] "V".toList) = false ∧
    startsWithPattern '-' '.'
      (lookup [("V".toList, "3.1".toList), ("D".toList, "x".toList)] "V".toList) = false ∧
    (lookupFirmwareVersion [("V".toList, "3.1".toList), ("D".toList, "x".toList)]
      "V".toList "D".toList (some ⟨0, 0, 0, 0, 0, 0⟩)).1 = 1 ∧
    lookup [("V".toList, "3.1.4xyz".toList), ("D".toList, "x".toList)] "V".toList
      = decimalText (3 : Nat) ++ '.' ::
          (decimalText (1 : Nat) ++ '.' :: (decimalText (4 : Nat) ++ "xyz".toList)) ∧
    (lookupFirmwareVersion [("V".toList, "3.1.4xyz".toList), ("D".toList, "x".toList)]
      "V".toList "D".toList (some ⟨0, 0, 0, 0, 0, 0⟩)).1 = 0 := by
  refine ⟨by decide, by decide, ?_, by decide, ?_⟩
  · exact (C15_failure_exactly_when_nothing_matches _ _ _ _).1.mpr
      (Or.inr (Or.inr ⟨by decide, by decide⟩))
  · exact (C15_failure_exactly_when_nothing_matches
      [("V".toList, "3.1.4xyz".toList), ("D".toList, "x".toList)] "V".toList "D".toList
      ⟨0, 0, 0, 0, 0, 0⟩).2.2.2.1 3 1 4 "xyz".toList (by norm_num) (by norm_num) (by norm_num)
      (by
        intro x hx
        have h : "xyz".toList.head? = some 'x' := by decide
        rw [h] at hx
        rw [← Option.some.inj hx]
        decide)
      (by decide) (Or.inl (by decide))

/-! ## The timestamp lookup -/

theorem scanInt_d_after_sign_width (neg : Bool) (w1 : Option Nat)
    (hw : widthLeft w1 = true) (s1 : Str) :
    (s1.head?.any (isDigitOf 10) = false ∧
      (let zero := widthLeft w1 && s1.head? == some '0'
       let w2 := if zero then decWidth w1 else w1
       let s2 := if zero then s1.tail else s1
       let isx := zero && widthLeft w2 && (s2.head? == some 'x' || s2.head? == some 'X')
       let base :=
         if isx then (if Conv.d.base = 0 then 16 else Conv.d.base)
         else if zero && Conv.d.base == 0 then 8
         else if Conv.d.base = 0 then 10 else Conv.d.base
       let skipx := isx && base == 16
       let w3 := if skipx then decWidth w2 else w2
       let s3 := if skipx then s2.tail else s2
       let r := readDigits base w3 s3
       let buf := (if zero then ['0'] else []) ++ r.1
       if buf = [] then Item.matchFailure
       else Item.ok (storeInt Conv.d neg (digitsValue base buf)) r.2) = Item.matchFailure) ∨
    (s1.head?.any (isDigitOf 10) = true ∧ ∃ x rest,
      (let zero := widthLeft w1 && s1.head? == some '0'
       let w2 := if zero then decWidth w1 else w1
       let s2 := if zero then s1.tail else s1
       let isx := zero && widthLeft w2 && (s2.head? == some 'x' || s2.head? == some 'X')
       let base :=
         if isx then (if Conv.d.base = 0 then 16 else Conv.d.base)
         else if zero && Conv.d.base == 0 then 8
         else if Conv.d.base = 0 then 10 else Conv.d.base
       let skipx := isx && base == 16
       let w3 := if skipx then decWidth w2 else w2
       let s3 := if skipx then s2.tail else s2
       let r := readDigits base w3 s3
       let buf := (if zero then ['0'] else []) ++ r.1
       if buf = [] then Item.matchFailure
       else Item.ok (storeInt Conv.d neg (digitsValue base buf)) r.2) = Item.ok x rest) := by
  have h0 : isDigitOf 10 '0' = true := by decide
  cases s1 with
  | nil => left; simp [readDigits]
  | cons x s =>
    cases hx : isDigitOf 10 x with
    | false =>
      left
      have hx0 : x ≠ '0' := by
        intro e
        rw [e, h0] at hx
        exact absurd hx (by decide)
      simp [hx, hx0, Conv.base, readDigits]
    | true =>
      right
      by_cases hx0 : x = '0'
      · subst hx0
        simp [hw, Conv.base, h0]
      · simp [hx, hx0, hw, Conv.base, readDigits]

theorem scanInt_d_width_cases (w : Option Nat)
    (hw : widthLeft w = true) (hw2 : widthLeft (decWidth w) = true) (v : Str) :
    ((leadingChar v).any (isDigitOf 10) = false ∧
      (scanInt .d w v = .inputFailure ∨ scanInt .d w v = .matchFailure)) ∨
    ((leadingChar v).any (isDigitOf 10) = true ∧ ∃ x rest, scanInt .d w v = .ok x rest) := by
  unfold scanInt leadingChar
  cases hdw : v.dropWhile isspace with
  | nil => left; exact ⟨rfl, Or.inl rfl⟩
  | cons c s =>
    by_cases hsgn : c = '-' ∨ c = '+'
    · have hs : (c == '-' || c == '+') = true := by
        rcases hsgn with e | e <;> simp [e]
      have ha : afterSign (c :: s) = s := by simp [afterSign, hsgn]
      simp only [hs, if_true, ha]
      rcases scanInt_d_after_sign_width (c == '-') (decWidth w) hw2 s with ⟨h1, h2⟩ | ⟨h1, h2⟩
      · exact Or.inl ⟨h1, Or.inr h2⟩
      · exact Or.inr ⟨h1, h2⟩
    · have hs : (c == '-' || c == '+') = false := by
        simp only [not_or] at hsgn
        simp [hsgn.1, hsgn.2]
      have ha : afterSign (c :: s) = c :: s := by simp [afterSign, hsgn]
      simp only [hs, Bool.false_eq_true, if_false, ha]
      rcases scanInt_d_after_sign_width (c == '-') w hw (c :: s) with ⟨h1, h2⟩ | ⟨h1, h2⟩
      · exact Or.inl ⟨h1, Or.inr h2⟩
      · exact Or.inr ⟨h1, h2⟩

theorem sscanf_timestamp_count (v : Str) :
    (sscanf v fmt_timestamp).count = 2 ↔ startsWithTimestamp v = true := by
  unfold sscanf fmt_timestamp startsWithTimestamp
  rcases scanInt_d_cases v with ⟨h1, h2 | h2⟩ | ⟨x1, r1, h1, h2⟩
  · simp [sscanfLoop, h1, h2, EOF]
  · simp [sscanfLoop, h1, h2]
  · cases r1 with
    | nil => simp [sscanfLoop, h1, h2]
    | cons c1 t1 =>
      by_cases hc1 : c1 = '.'
      · subst hc1
        rcases scanInt_d_width_cases (some 9) rfl rfl t1 with ⟨h3, h4 | h4⟩ | ⟨h3, x2, r2, h4⟩
        · simp [sscanfLoop, h1, h2, h3, h4]
        · simp [sscanfLoop, h1, h2, h3, h4]
        · simp [sscanfLoop, h1, h2, h3, h4]
      · simp [sscanfLoop, h1, h2, hc1]

theorem lookupTimeStamp_status (kvp : Kvp) (key : Str) (val : Option TTimeStamp) :
    (startsWithTimestamp (lookup kvp key) = false ∧ lookupTimeStamp kvp key val = (1, val)) ∨
    (startsWithTimestamp (lookup kvp key) = true ∧ (lookupTimeStamp kvp key val).1 = 0) := by
  have hc := sscanf_timestamp_count (lookup kvp key)
  unfold lookupTimeStamp
  dsimp only
  by_cases hne : lookup kvp key = []
  · left
    rw [if_pos hne, hne]
    exact ⟨rfl, rfl⟩
  · rw [if_neg hne]
    cases hm : startsWithTimestamp (lookup kvp key) with
    | true =>
      right
      have h2 : ¬ (2 ≠ (sscanf (lookup kvp key) fmt_timestamp).count) := by
        rw [hc.mpr hm]; simp
      rw [if_neg h2]
      exact ⟨rfl, rfl⟩
    | false =>
      left
      have h2 : 2 ≠ (sscanf (lookup kvp key) fmt_timestamp).count := by
        intro e
        rw [hc.mp e.symm] at hm
        exact absurd hm (by decide)
      rw [if_pos h2]
      exact ⟨rfl, rfl⟩

/-- C11, as stated, fails: the value `1.5` is not an integer followed by a `.`
and exactly nine digits, and the lookup does not return 1 for it. -/
theorem C11_short_fraction_is_accepted :
    ¬ (∀ (kvp : Kvp) (key : Str) (val : Option TTimeStamp),
      isTimestampText (lookup kvp key) = false → lookupTimeStamp kvp key val = (1, val)) := by
  intro h
  have h1 := h [("K".toList, "1.5".toList)] "K".toList (some ⟨0, 0⟩) (by decide)
  revert h1
  decide

/-- C11, amended: the timestamp lookup returns 1 exactly when the stored
value (the empty string for an absent key) does not start with an integer, a
`.` and a second integer, and then it leaves the output untouched; otherwise
it returns 0. The value `abc` fails; a fraction of fewer than nine digits, a
sign in the fraction and characters after the ninth digit do not make the
lookup fail. -/
theorem C11_lookupTimeStamp_fails_without_two_integers :
    (∀ (kvp : Kvp) (key : Str) (val : Option TTimeStamp),
      ((lookupTimeStamp kvp key val).1 = 1 ↔ startsWithTimestamp (lookup kvp key) = false) ∧
      ((lookupTimeStamp kvp key val).1 = 0 ↔ startsWithTimestamp (lookup kvp key) = true) ∧
      ((lookupTimeStamp kvp key val).1 = 1 → (lookupTimeStamp kvp key val).2 = val)) ∧
    (∀ t : TTimeStamp,
      lookupTimeStamp [("K".toList, "abc".toList)] "K".toList (some t) = (1, some t)) ∧
    lookupTimeStamp [("K".toList, "1.5".toList)] "K".toList (some ⟨0, 0⟩)
      = (0, some ⟨1, 5⟩) ∧
    lookupTimeStamp [("K".toList, "1.-5".toList)] "K".toList (some ⟨0, 0⟩)
      = (0, some ⟨1, -5⟩) ∧
    lookupTimeStamp [("K".toList, "1.0000000015".toList)] "K".toList (some ⟨0, 0⟩)
      = (0, some ⟨1, 1⟩) ∧
    lookupTimeStamp [("K".toList, "1.000000002xyz".toList)] "K".toList (some ⟨0, 0⟩)
      = (0, some ⟨1, 2⟩) := by
  refine ⟨?_, ?_, by decide, by decide, by decide, by decide⟩
  · intro kvp key val
    rcases lookupTimeStamp_status kvp key val with ⟨h1, h2⟩ | ⟨h1, h2⟩
    · rw [h1, h2]
      simp
    · rw [h1, h2]
      simp
  · intro t
    rfl

/-- Witness for the amended C11: the value `abc` does not start with two
integers, so the lookup returns 1 and the output keeps its value. -/
theorem C11_lookupTimeStamp_fails_without_two_integers_witness :
    startsWithTimestamp (lookup [("K".toList, "abc".toList)] "K".toList) = false ∧
    (lookupTimeStamp [("K".toList, "abc".toList)] "K".toList (some ⟨3, 4⟩)).1 = 1 ∧
    (lookupTimeStamp [("K".toList, "abc".toList)] "K".toList (some ⟨3, 4⟩)).2
      = some ⟨3, 4⟩ := by
  have h := C11_lookupTimeStamp_fails_without_two_integers.1
    [("K".toList, "abc".toList)] "K".toList (some ⟨3, 4⟩)
  have h1 := h.1.mpr (by decide)
  exact ⟨by decide, h1, h.2.2 h1⟩

end mattak
